import Mathlib

/-!
Shallow embedding of the reserve-life filing pipeline
(`src/app/callbacks.py`, `src/app/sec_data.py`, `src/app/oil_extraction.py`,
`src/app/llm_client.py`) and proofs about its claims.

Floating-point numbers are modelled as rationals plus an explicit NaN
sentinel (`FactVal.nan` models Python's `math.nan`); every number reached by
the claims is exactly representable. Network calls and the language model are
modelled as oracle functions passed in as parameters.
-/

namespace ReserveLife

/-- Generic association-list lookup modelling Python dict key access
(`d[k]` / `d.get(k)`): returns the first binding for the key. -/
def alookup {α : Type} (k : String) : List (String × α) → Option α
  | [] => none
  | (k', v) :: rest => if k' = k then some v else alookup k rest

/-- Value stored under a fact key in an `extracted_data` dict: a finite float
(modelled as a rational) or the NaN produced by `math.nan`. -/
inductive FactVal where
  | num (q : ℚ)
  | nan
  deriving DecidableEq

/-- Python's `math.isnan` on a fact value. -/
def isNanVal : FactVal → Bool
  | .num _ => false
  | .nan => true

/-- An `extracted_data` dict: either fact key may be absent. -/
structure FactsMap where
  reserves : Option FactVal
  production : Option FactVal
  deriving DecidableEq

/-- One filing record as stored under `companies[ticker]['filings'][accession]`
(see `update_filings_display`, callbacks.py lines 189-196). The dict keys
`'type'`, `'filing_date'`, `'url'`, `'accession'`, `'period_end'`,
`'extracted_data'`, `'extraction_log'` become the fields below;
`extracted_data = none` models the key being absent from the dict, while
`some ⟨none, none⟩` models the empty dict `{}`. -/
structure Filing where
  ftype : String
  filing_date : String
  url : String
  accession : String
  period_end : String
  extracted_data : Option FactsMap
  extraction_log : Option String
  deriving DecidableEq

/-- Result dict returned by `extract_oil_data_from_filing`
(oil_extraction.py lines 248-276): `{'success': bool, 'data': {...}, 'log': str}`.
Used as the codomain of the extractor oracle in the orchestrator model;
`none` at the oracle models a falsy `result`. -/
structure ExtResult where
  success : Bool
  data : FactsMap
  log : String

/-- Validity test applied to one fact value in `extract_oil_data_bulk`
(callbacks.py lines 255-256): a number that is not NaN and is `> 0`.
The `isinstance` check always holds in this model, where every stored fact
value is numeric or NaN. -/
def validVal : FactVal → Bool
  | .num q => decide (0 < q)
  | .nan => false

/-- The `has_valid_data` test of `extract_oil_data_bulk` (callbacks.py lines
249-256): fetch `extracted_data` defaulting to the empty dict, fetch each fact
defaulting to `0`, and ask whether either fact is valid. -/
def has_valid_data (f : Filing) : Bool :=
  let ed := f.extracted_data.getD ⟨none, none⟩
  validVal (ed.reserves.getD (.num 0)) || validVal (ed.production.getD (.num 0))

/-- Per-filing body of the loop in `extract_oil_data_bulk` (callbacks.py lines
248-291): skip the filing when it already has valid data; otherwise invoke the
extractor on its URL and store the outcome. Returns the updated filing record
together with the increments of the success and failure counters. -/
def bulk_process_filing (ext : String → Option ExtResult) (f : Filing) :
    Filing × Nat × Nat :=
  if has_valid_data f then (f, 0, 0)
  else
    match ext f.url with
    | some r =>
      if r.success then
        let reserves := r.data.reserves.getD (.num 0)
        let production := r.data.production.getD (.num 0)
        let f' := { f with extracted_data := some ⟨some reserves, some production⟩,
                           extraction_log := some r.log }
        if !isNanVal reserves && !isNanVal production then (f', 1, 0) else (f', 0, 1)
      else
        ({ f with extracted_data := some ⟨some (.num 0), some (.num 0)⟩,
                  extraction_log := some r.log }, 0, 1)
    | none =>
        ({ f with extracted_data := some ⟨some (.num 0), some (.num 0)⟩,
                  extraction_log := some "Extraction failed" }, 0, 1)

/-- The filings loop of `extract_oil_data_bulk`: process every filing of the
dict in order, accumulating the two counters. -/
def bulk_filings (ext : String → Option ExtResult) :
    List (String × Filing) → List (String × Filing) × Nat × Nat
  | [] => ([], 0, 0)
  | (k, f) :: rest =>
      let step := bulk_process_filing ext f
      let restRes := bulk_filings ext rest
      ((k, step.1) :: restRes.1, step.2.1 + restRes.2.1, step.2.2 + restRes.2.2)

/-- A company entry: identity info (opaque to extraction) plus the filings dict. -/
structure Company where
  info : List (String × String)
  filings : List (String × Filing)

/-- The companies loop of `extract_oil_data_bulk` (callbacks.py lines 246-291). -/
def bulk_companies (ext : String → Option ExtResult) :
    List (String × Company) → List (String × Company) × Nat × Nat
  | [] => ([], 0, 0)
  | (tk, co) :: rest =>
      let step := bulk_filings ext co.filings
      let restRes := bulk_companies ext rest
      ((tk, { co with filings := step.1 }) :: restRes.1,
       step.2.1 + restRes.2.1, step.2.2 + restRes.2.2)

/-- Per-filing body of `extract_single_filing` (callbacks.py lines 346-382):
always invoke the extractor, unconditionally overwriting `extracted_data`. -/
def single_process_filing (ext : String → Option ExtResult) (f : Filing) : Filing :=
  match ext f.url with
  | some r =>
    if r.success then
      { f with extracted_data := some ⟨some (r.data.reserves.getD (.num 0)),
                                       some (r.data.production.getD (.num 0))⟩,
               extraction_log := some r.log }
    else
      { f with extracted_data := some ⟨some (.num 0), some (.num 0)⟩,
               extraction_log := some r.log }
  | none =>
      { f with extracted_data := some ⟨some (.num 0), some (.num 0)⟩,
               extraction_log := some "No data extracted" }

/-- Ephemeral filing data as produced by `get_filings_in_date_range`
(sec_data.py lines 167-173): the dict with keys `'type'`, `'filing_date'`,
`'period_end'`, `'url'`, `'accession'`. -/
structure DiscItem where
  dtype : String
  filing_date : String
  period_end : String
  url : String
  accession : String
  deriving DecidableEq

/-- The new record inserted for a not-yet-present accession by
`update_filings_display` (callbacks.py lines 186-196). The preserved
`existing_extracted_data` is `{}.get('extracted_data', {}) = {}` because the
accession is absent, so `extracted_data` is the empty dict and no
`extraction_log` key is set. -/
def mk_discovered_filing (d : DiscItem) : Filing :=
  { ftype := d.dtype, filing_date := d.filing_date, url := d.url,
    accession := d.accession, period_end := d.period_end,
    extracted_data := some ⟨none, none⟩, extraction_log := none }

/-- The merge loop of `update_filings_display` (callbacks.py lines 183-196):
for each discovered accession, insert a fresh record only when the accession is
not already a key of the (mutating) filings dict; existing entries are never
touched. Python dict insertion appends at the end. -/
def merge_filings (existing : List (String × Filing))
    (discovered : List (String × DiscItem)) : List (String × Filing) :=
  discovered.foldl
    (fun acc kd =>
      if (alookup kd.1 acc).isSome then acc
      else acc ++ [(kd.1, mk_discovered_filing kd.2)])
    existing

/-- Lexicographic comparison of character lists by code point, modelling
Python's `<=` on strings. -/
def charListLe : List Char → List Char → Bool
  | [], _ => true
  | _ :: _, [] => false
  | a :: as, b :: bs =>
      decide (a.toNat < b.toNat) || (decide (a.toNat = b.toNat) && charListLe as bs)

/-- Python string comparison `a <= b`. -/
def pyStrLe (a b : String) : Bool := charListLe a.toList b.toList

/-- Leap-year rule used by `datetime` validation. -/
def isLeapYear (y : Nat) : Bool := (y % 4 = 0 && !(y % 100 = 0)) || y % 400 = 0

/-- Number of days of a month, used by `datetime` validation. -/
def daysInMonth (y m : Nat) : Nat :=
  if m = 2 then (if isLeapYear y then 29 else 28)
  else if m = 4 || m = 6 || m = 9 || m = 11 then 30 else 31

/-- Decimal value of a digit character, `none` for non-digits. -/
def digitVal (c : Char) : Option Nat :=
  if c.isDigit then some (c.toNat - 48) else none

/-- Month-or-day field candidates of `strptime`, in regex priority order: a
two-digit reading when the two leading characters form `01..39`-style matches
of the field regex, then a one-digit reading `1..9`. `lo2`/`hi2` bound the
two-digit reading (12 for `%m`, 31 for `%d`). -/
def fieldCands (hi2 : Nat) : List Char → List (Nat × List Char)
  | a :: b :: rest =>
      (match digitVal a, digitVal b with
       | some da, some db =>
           let v := da * 10 + db
           if 1 ≤ v ∧ v ≤ hi2 then [(v, rest)] else []
       | _, _ => []) ++
      (match digitVal a with
       | some da => if 1 ≤ da then [(da, b :: rest)] else []
       | none => [])
  | [a] =>
      (match digitVal a with
       | some da => if 1 ≤ da then [(da, [])] else []
       | none => [])
  | [] => []

/-- Day-then-end continuation of the `%Y-%m-%d` parse: require `-`, a day
field, end of input, and `datetime` range validation. -/
def parseDayEnd (y m : Nat) : List Char → Option (Nat × Nat × Nat)
  | '-' :: rest =>
      (fieldCands 31 rest).findSome? fun (d, rem) =>
        if rem = [] ∧ 1 ≤ d ∧ d ≤ daysInMonth y m then some (y, m, d) else none
  | _ => none

/-- Parse of `datetime.strptime(s, '%Y-%m-%d')`: exactly four year digits,
`-`, a one-or-two-digit month, `-`, a one-or-two-digit day consuming the whole
string, with `datetime` validating the ranges (backtracking between the
two-digit and one-digit readings as the regex does). -/
def parseYmd (s : String) : Option (Nat × Nat × Nat) :=
  match s.toList with
  | c1 :: c2 :: c3 :: c4 :: '-' :: rest =>
      match digitVal c1, digitVal c2, digitVal c3, digitVal c4 with
      | some d1, some d2, some d3, some d4 =>
          let y := ((d1 * 10 + d2) * 10 + d3) * 10 + d4
          if 1 ≤ y then
            (fieldCands 12 rest).findSome? fun (m, rem) => parseDayEnd y m rem
          else none
      | _, _, _, _ => none
  | _ => none

/-- Zero-padding to two digits, as `strftime('%m')`/`strftime('%d')`. -/
def pad2 (n : Nat) : String := if n < 10 then "0" ++ toString n else toString n

/-- Zero-padding to four digits, as `strftime('%Y')`. -/
def pad4 (n : Nat) : String :=
  if n < 10 then "000" ++ toString n
  else if n < 100 then "00" ++ toString n
  else if n < 1000 then "0" ++ toString n
  else toString n

/-- The round trip `strptime(text, '%Y-%m-%d').strftime('%Y-%m-%d')` of
`get_filings_from_search_page` (sec_data.py line 57): parse, then re-render
canonically. -/
def canonDate (s : String) : Option String :=
  (parseYmd s).map fun (ymd : Nat × Nat × Nat) =>
    pad4 ymd.1 ++ "-" ++ pad2 ymd.2.1 ++ "-" ++ pad2 ymd.2.2

/-- Characters matched by the `[0-9-]` class of the accession regex. -/
def isAccChar (c : Char) : Bool := c.isDigit || c = '-'

/-- Characters matched by `\s` (ASCII part). -/
def isPyWs (c : Char) : Bool :=
  c = ' ' || c = '\t' || c = '\n' || c = '\r' || c.toNat = 11 || c.toNat = 12

/-- One attempt of the regex `Acc-no:\s*([0-9-]+)` at the current position. -/
def accAt (cs : List Char) : Option String :=
  if "Acc-no:".toList.isPrefixOf cs then
    let rest := (cs.drop 7).dropWhile isPyWs
    let digits := rest.takeWhile isAccChar
    if digits = [] then none else some (String.mk digits)
  else none

/-- The search `re.search(r'Acc-no:\s*([0-9-]+)', text)` of
`get_filings_from_search_page` (sec_data.py line 62): try every position left
to right. -/
def findAccNo : List Char → Option String
  | [] => none
  | c :: rest =>
      match accAt (c :: rest) with
      | some a => some a
      | none => findAccNo rest

/-- Ephemeral discovery candidate produced by the listing
(sec_data.py lines 65-69): the dict with keys `'accession'`,
`'filing_date'`, `'type'`. -/
structure DiscCand where
  accession : String
  filing_date : String
  dtype : String
  deriving DecidableEq

/-- Body of the row loop of `get_filings_from_search_page` (sec_data.py lines
50-69): a row contributes a candidate when it has at least four cells, its
fourth cell parses as a `%Y-%m-%d` date whose canonical form lies in
`[start_date, end_date]` under Python string comparison, and its third cell
contains an accession number. -/
def row_candidate (filing_type start_date end_date : String)
    (cells : List String) : Option DiscCand :=
  if 4 ≤ cells.length then
    match cells.get? 3 with
    | none => none
    | some dateText =>
      match canonDate dateText with
      | none => none
      | some fd =>
        if pyStrLe start_date fd && pyStrLe fd end_date then
          match cells.get? 2 with
          | none => none
          | some desc =>
            match findAccNo desc.toList with
            | none => none
            | some acc => some ⟨acc, fd, filing_type⟩
        else none
  else none

/-- The listing `get_filings_from_search_page` (sec_data.py lines 36-73),
taking the parsed rows of the `tableFile2` table (each row the stripped texts
of its `td` cells): skip the header row, then keep the in-range rows. The
network layer and HTML parsing are outside the model; a failed fetch or a
missing table corresponds to an empty row list. -/
def get_filings_from_search_page (filing_type start_date end_date : String)
    (rows : List (List String)) : List DiscCand :=
  (rows.drop 1).filterMap (row_candidate filing_type start_date end_date)

/-- Substring test on character lists (Python's `in` on strings). -/
def containsSubList (needle : List Char) : List Char → Bool
  | [] => needle.isPrefixOf ([] : List Char)
  | c :: rest => needle.isPrefixOf (c :: rest) || containsSubList needle rest

/-- Python's `needle in hay` on strings. -/
def containsSub (needle hay : String) : Bool :=
  containsSubList needle.toList hay.toList

/-- Characters before the first occurrence of a needle; the whole list when
absent (this is `s.split(needle)[0]`). -/
def takeBeforeAux (needle : List Char) : List Char → List Char
  | [] => []
  | c :: rest =>
      if needle.isPrefixOf (c :: rest) then [] else c :: takeBeforeAux needle rest

/-- Python's `s.split(needle)[0]` for a non-empty needle. -/
def takeBefore (needle s : String) : String :=
  String.mk (takeBeforeAux needle.toList s.toList)

/-- Helper of `splitWs`: accumulate the current word (reversed). -/
def splitWsAux : List Char → List Char → List String
  | acc, [] => if acc = [] then [] else [String.mk acc.reverse]
  | acc, c :: rest =>
      if isPyWs c then
        if acc = [] then splitWsAux [] rest
        else String.mk acc.reverse :: splitWsAux [] rest
      else splitWsAux (c :: acc) rest

/-- Python's `s.split()`: split on whitespace runs, dropping empty pieces. -/
def splitWs (s : String) : List String := splitWsAux [] s.toList

/-- ASCII lowering of one character, as Python's `str.lower` on the ASCII
range (no non-ASCII letters occur in the compared keywords). -/
def pyCharLower (c : Char) : Char :=
  if 65 ≤ c.toNat ∧ c.toNat ≤ 90 then Char.ofNat (c.toNat + 32) else c

/-- Python's `s.lower()`. -/
def pyLower (s : String) : String := String.mk (s.toList.map pyCharLower)

/-- Python's `s.startswith(pre)`. -/
def pyStartsWith (s pre : String) : Bool := pre.toList.isPrefixOf s.toList

/-- Python's `s.strip()` (ASCII whitespace). -/
def pyStrip (s : String) : String :=
  String.mk (((s.toList.dropWhile isPyWs).reverse.dropWhile isPyWs).reverse)

/-- A hyperlink (`<a>` tag) inside an index-table document cell: its stripped
text and its `href` attribute when present. -/
structure LinkTag where
  text : String
  href : Option String
  deriving DecidableEq

/-- A `td` cell of a filing-index table: its stripped full text and its first
direct child anchor, if any (`get_filing_details_from_index`, sec_data.py
line 120). -/
structure IdxCell where
  text : String
  link : Option LinkTag
  deriving DecidableEq

/-- A `tr` row of a filing-index table: a header row (the stripped texts of
its `th` cells) or a data row (its `td` cells). -/
inductive IdxRow where
  | header (ths : List String)
  | data (tds : List IdxCell)
  deriving DecidableEq

/-- Header-row processing of `get_filing_details_from_index` (sec_data.py
lines 105-113): each `th` whose lowered text is `document` or `type` records
its index (a later matching `th` overrides an earlier one). -/
def headerIndices (init : Option Nat × Option Nat) (ths : List String) :
    Option Nat × Option Nat :=
  ths.enum.foldl
    (fun p it =>
      let txt := pyLower it.2
      let p1 := if txt = "document" then (some it.1, p.2) else p
      if txt = "type" then (p1.1, some it.1) else p1)
    init

/-- Row scan of `get_filing_details_from_index` (sec_data.py lines 102-136):
thread the header indices through the rows; on a data row with both indices
known and enough cells, break when the type cell's text equals the literal
`'10-K'`, returning the document cell (and the matched type text). -/
def findMatchRow : Option Nat × Option Nat → List IdxRow → Option (IdxCell × String)
  | _, [] => none
  | p, (.header ths) :: rest => findMatchRow (headerIndices p ths) rest
  | p, (.data tds) :: rest =>
      match p with
      | (some di, some ti) =>
          if max di ti < tds.length then
            let tcell := tds.getD ti ⟨"", none⟩
            if tcell.text = "10-K" then some (tds.getD di ⟨"", none⟩, tcell.text)
            else findMatchRow (some di, some ti) rest
          else findMatchRow (some di, some ti) rest
      | _ => findMatchRow p rest

/-- Document name and URL computed from the matched document cell
(sec_data.py lines 119-135): prefer the first direct child anchor with an
`href` (stripping the `/ix?doc=` viewer prefix and resolving server-absolute
paths); otherwise fall back to the cell text, cutting at `.htm` or taking the
first whitespace token. An all-whitespace fallback text yields no name. -/
def mkDocFromCell (cell : IdxCell) : Option String × Option String :=
  match cell.link with
  | some l =>
      match l.href with
      | some href =>
          let href1 := if pyStartsWith href "/ix?doc=" then href.drop 8 else href
          (some l.text,
           some (if pyStartsWith href1 "/" then "https://www.sec.gov" ++ href1 else href1))
      | none =>
          if containsSub ".htm" cell.text then
            (some (takeBefore ".htm" cell.text ++ ".htm"), none)
          else if cell.text = "" then (none, none)
          else
            match splitWs cell.text with
            | [] => (none, none)
            | t :: _ => (some t, none)
  | none =>
      if containsSub ".htm" cell.text then
        (some (takeBefore ".htm" cell.text ++ ".htm"), none)
      else if cell.text = "" then (none, none)
      else
        match splitWs cell.text with
        | [] => (none, none)
        | t :: _ => (some t, none)

/-- Table loop of `get_filing_details_from_index` (sec_data.py lines 96-138):
scan each table's rows; a match whose document name is truthy (non-empty)
breaks out, a falsy name moves on to the next table. -/
def scanTables : List (List IdxRow) → Option (String × Option String)
  | [] => none
  | tbl :: rest =>
      match findMatchRow (none, none) tbl with
      | some (dcell, _) =>
          match mkDocFromCell dcell with
          | (some name, urlOpt) =>
              if name = "" then scanTables rest else some (name, urlOpt)
          | (none, _) => scanTables rest
      | none => scanTables rest

/-- Successful result of `get_filing_details_from_index`
(sec_data.py lines 144-148). -/
structure FilingDetail where
  period_end : String
  url : String
  document_name : String
  deriving DecidableEq

/-- The final assembly of `get_filing_details_from_index` (sec_data.py lines
139-149): require a truthy period-of-report field (modelled as the already
extracted `infoHead` value) and a truthy document name, then build the filing
URL, preferring the hyperlink-derived URL over the archives fallback.
`cikNum` is `int(cik)`. -/
def get_filing_details_from_index (cikNum : Nat) (accessionNoDashes : String)
    (periodEnd : Option String) (tables : List (List IdxRow)) :
    Option FilingDetail :=
  match scanTables tables with
  | none => none
  | some (name, urlOpt) =>
      match periodEnd with
      | none => none
      | some pe =>
          if pe = "" then none
          else
            some { period_end := pe,
                   url := match urlOpt with
                          | some u => u
                          | none => "https://www.sec.gov/Archives/edgar/data/" ++
                                    toString cikNum ++ "/" ++ accessionNoDashes ++
                                    "/" ++ name,
                   document_name := name }

/-- Reserves keyword classifier `has_reserves_keywords`
(oil_extraction.py lines 21-31). -/
def has_reserves_keywords (text : String) : Bool :=
  if text = "" ∨ text.length < 20 then false
  else
    let tl := pyLower text
    if !containsSub "reserve" tl then false
    else if !(["oil", "crude", "barrel", "bbl", "mmbbl", "petroleum"].any
        (fun ind => containsSub ind tl)) then false
    else containsSub "proved" tl || containsSub "proven" tl || containsSub "total" tl

/-- Production keyword classifier `has_production_keywords`
(oil_extraction.py lines 34-44). -/
def has_production_keywords (text : String) : Bool :=
  if text = "" ∨ text.length < 20 then false
  else
    let tl := pyLower text
    if !(containsSub "production" tl || containsSub "produced" tl) then false
    else if !(["oil", "crude", "barrel", "bbl", "bpd", "mbpd", "petroleum"].any
        (fun ind => containsSub ind tl)) then false
    else ["day", "daily", "annual", "year", "mbpd", "bpd"].any
        (fun ind => containsSub ind tl)

/-- Digit test `has_numbers` (oil_extraction.py lines 47-49),
`re.search(r'\d', text)`. -/
def has_numbers (text : String) : Bool := text.toList.any Char.isDigit

/-- A parsed HTML node of the BeautifulSoup document tree: a text fragment or
an element with a tag name and children. The synthetic document root is an
element whose tag is `[document]`. -/
inductive HtmlNode where
  | text (s : String)
  | elem (tag : String) (children : List HtmlNode)

/-- The tag names removed by the cleanup loop of `extract_oil_content`
(oil_extraction.py lines 76-77). -/
def removedTags : List String :=
  ["script", "style", "nav", "footer", "header", "meta", "link", "noscript"]

mutual

/-- The `decompose` cleanup of `extract_oil_content`: drop every element
whose tag is in the removal list, everywhere in the tree. -/
def stripRemoved : HtmlNode → Option HtmlNode
  | .text s => some (.text s)
  | .elem tag children =>
      if removedTags.contains tag then none
      else some (.elem tag (stripRemovedList children))

/-- Cleanup over a child list. -/
def stripRemovedList : List HtmlNode → List HtmlNode
  | [] => []
  | c :: cs =>
      match stripRemoved c with
      | some c' => c' :: stripRemovedList cs
      | none => stripRemovedList cs

end

mutual

/-- The text fragments of a subtree, in document order (the
`NavigableString`s that `get_text` joins). -/
def textFragments : HtmlNode → List String
  | .text s => [s]
  | .elem _ children => textFragmentsList children

/-- Text fragments of a child list. -/
def textFragmentsList : List HtmlNode → List String
  | [] => []
  | c :: cs => textFragments c ++ textFragmentsList cs

end

/-- BeautifulSoup's `get_text(separator=sep, strip=True)`: strip each text
fragment, drop the empty ones, join with the separator. -/
def getTextStrip (sep : String) (n : HtmlNode) : String :=
  String.intercalate sep
    (((textFragments n).map pyStrip).filter (fun s => !(s = "")))

mutual

/-- BeautifulSoup's `find_all(tags)`: every element of the subtree whose tag
is in the list, in document (pre)order, nested elements included. -/
def findAllTags (tags : List String) : HtmlNode → List HtmlNode
  | .text _ => []
  | .elem tag children =>
      (if tags.contains tag then [HtmlNode.elem tag children] else []) ++
        findAllTagsList tags children

/-- The `find_all` collection over a child list. -/
def findAllTagsList (tags : List String) : List HtmlNode → List HtmlNode
  | [] => []
  | c :: cs => findAllTags tags c ++ findAllTagsList tags cs

end

/-- The tag-name list of the free-text pass of `extract_oil_content`
(oil_extraction.py line 112). -/
def textPassTags : List String := ["p", "div", "span", "td", "li", "th"]

/-- Table selection of the first pass of `extract_oil_content`
(oil_extraction.py lines 81-97): enumerate the tables of the stripped tree,
keep those whose space-joined text passes the reserves classifier and
contains a digit. -/
def selected_reserves_tables (stripped : HtmlNode) : List (Nat × HtmlNode) :=
  (findAllTags ["table"] stripped).enum.filter
    (fun it => has_reserves_keywords (getTextStrip " " it.2) &&
      has_numbers (getTextStrip " " it.2))

/-- Production-side table selection (oil_extraction.py lines 96-97). -/
def selected_production_tables (stripped : HtmlNode) : List (Nat × HtmlNode) :=
  (findAllTags ["table"] stripped).enum.filter
    (fun it => has_production_keywords (getTextStrip " " it.2) &&
      has_numbers (getTextStrip " " it.2))

/-- Serialization of one selected table (oil_extraction.py lines 103-110):
an index label and the `' | '`-joined cell text. -/
def serializeTable (it : Nat × HtmlNode) : String :=
  "[TABLE " ++ toString (it.1 + 1) ++ "]\n" ++ getTextStrip " | " it.2 ++ "\n\n"

/-- Free-text pass, reserves side (oil_extraction.py lines 112-129): for every
`p`/`div`/`span`/`td`/`li`/`th` element of the stripped tree, take its full
rendered text (`get_text(strip=True)`, descendants included) and keep it when
it is longer than 30 characters, passes the reserves classifier and contains
a digit. -/
def reserves_paragraphs (stripped : HtmlNode) : List String :=
  (findAllTags textPassTags stripped).filterMap
    (fun e =>
      let t := getTextStrip "" e
      if 30 < t.length ∧ has_reserves_keywords t = true ∧ has_numbers t = true
      then some t else none)

/-- Free-text pass, production side (oil_extraction.py lines 128-129). -/
def production_paragraphs (stripped : HtmlNode) : List String :=
  (findAllTags textPassTags stripped).filterMap
    (fun e =>
      let t := getTextStrip "" e
      if 30 < t.length ∧ has_production_keywords t = true ∧ has_numbers t = true
      then some t else none)

/-- Modelled from the spec (§4.3 pass 2), for comparison only: the element's
own rendered text, excluding text belonging to child elements. The code has no
such notion; this definition follows the spec's words "the element's own text
(not inherited from children already counted)". -/
def ownTextStrip (sep : String) : HtmlNode → String
  | .text s => pyStrip s
  | .elem _ children =>
      String.intercalate sep
        (((children.filterMap (fun c =>
            match c with
            | .text s => some (pyStrip s)
            | .elem _ _ => none))).filter (fun s => !(s = "")))

/-- Modelled from the spec (§4.3 pass 2), for comparison only: the free-text
pass as the spec describes it, classifying each element by its own text. -/
def reserves_paragraphs_own (stripped : HtmlNode) : List String :=
  (findAllTags textPassTags stripped).filterMap
    (fun e =>
      let t := ownTextStrip "" e
      if 30 < t.length ∧ has_reserves_keywords t = true ∧ has_numbers t = true
      then some t else none)

/-- The content narrower `extract_oil_content` (oil_extraction.py lines
71-140): strip the removed tags, serialize all selected tables, then append
up to 20 matching paragraphs per category. -/
def extract_oil_content (soup : HtmlNode) : String × String :=
  let stripped := (stripRemoved soup).getD (.elem "[document]" [])
  let reserves_text :=
    String.intercalate "\n" ((selected_reserves_tables stripped).map serializeTable) ++
      "\n\n" ++ String.intercalate "\n" ((reserves_paragraphs stripped).take 20)
  let production_text :=
    String.intercalate "\n" ((selected_production_tables stripped).map serializeTable) ++
      "\n\n" ++ String.intercalate "\n" ((production_paragraphs stripped).take 20)
  (reserves_text, production_text)

/-- The double-quote character. -/
def quoteChar : Char := Char.ofNat 34

/-- The backslash character. -/
def backslashChar : Char := Char.ofNat 92

/-- The opening-brace character. -/
def lbChar : Char := Char.ofNat 123

/-- The closing-brace character. -/
def rbChar : Char := Char.ofNat 125

/-- JSON values of the subset produced by the extraction prompt: null, exact
numbers (floats modelled as rationals) and simple strings. Booleans, arrays
and nested objects are outside the modelled subset (the prompt requests two
numeric fields). -/
inductive JVal where
  | null
  | num (q : ℚ)
  | str (s : String)
  deriving DecidableEq

/-- A parsed JSON object, as an ordered binding list. -/
abbrev JObj := List (String × JVal)

/-- Python dict lookup on a parsed object: the last binding wins, as in
`json.loads`. -/
def jlookup (obj : JObj) (k : String) : Option JVal := alookup k obj.reverse

/-- Python's `k in data` on a parsed object. -/
def jhasKey (obj : JObj) (k : String) : Bool := (jlookup obj k).isSome

/-- JSON whitespace. -/
def jsonWs (c : Char) : Bool := c = ' ' || c = '\t' || c = '\n' || c = '\r'

/-- Skip JSON whitespace. -/
def skipWs (cs : List Char) : List Char := cs.dropWhile jsonWs

/-- Parse a simple JSON string literal (no escape sequences, which the
modelled responses do not contain): a quote, body characters, a quote. -/
def parseJString : List Char → Option (String × List Char)
  | [] => none
  | c :: rest =>
      if c = quoteChar then
        let body := rest.takeWhile (fun d => !(d = quoteChar || d = backslashChar))
        match rest.drop body.length with
        | d :: rest2 => if d = quoteChar then some (String.mk body, rest2) else none
        | [] => none
      else none

/-- Numeric value of a digit run. -/
def digitsToNat (ds : List Char) : Nat :=
  ds.foldl (fun acc c => acc * 10 + (c.toNat - 48)) 0

/-- Exact rational value of a signed decimal `mantissa × 10 ^ e10`, built
with `mkRat` and natural-number arithmetic so that concrete runs evaluate in
the kernel. -/
def decimalToRat (neg : Bool) (mantissa : Nat) (e10 : Int) : ℚ :=
  let m : Int := if neg then -(mantissa : Int) else (mantissa : Int)
  if 0 ≤ e10 then mkRat (m * ((10 ^ e10.toNat : Nat) : Int)) 1
  else mkRat m (10 ^ (-e10).toNat)

/-- Parse a JSON number (`-? (0|[1-9][0-9]*) (\.[0-9]+)? ([eE][+-]?[0-9]+)?`)
into an exact rational. -/
def parseJNumber (cs : List Char) : Option (ℚ × List Char) :=
  let (neg, cs1) :=
    match cs with
    | c :: rest => if c = '-' then (true, rest) else (false, cs)
    | [] => (false, cs)
  let intPart := cs1.takeWhile Char.isDigit
  if intPart = [] then none
  else if 1 < intPart.length ∧ intPart.headD '0' = '0' then none
  else
    let cs2 := cs1.drop intPart.length
    let (fracPart, cs3) :=
      match cs2 with
      | '.' :: rest =>
          let ds := rest.takeWhile Char.isDigit
          (ds, rest.drop ds.length)
      | _ => ([], cs2)
    let fracBad : Bool :=
      match cs2 with
      | '.' :: _ => fracPart.isEmpty
      | _ => false
    if fracBad then none
    else
      let expOpt : Option (Bool × List Char × List Char) :=
        match cs3 with
        | c :: rest =>
            if c = 'e' ∨ c = 'E' then
              let (eneg, rest2) :=
                match rest with
                | d :: rest' =>
                    if d = '-' then (true, rest')
                    else if d = '+' then (false, rest') else (false, rest)
                | [] => (false, rest)
              let eds := rest2.takeWhile Char.isDigit
              if eds = [] then none else some (eneg, eds, rest2.drop eds.length)
            else none
        | [] => none
      let mantissa := digitsToNat (intPart ++ fracPart)
      match expOpt with
      | some (eneg, eds, cs4) =>
          let e : Int :=
            if eneg then -(digitsToNat eds : Int) else (digitsToNat eds : Int)
          some (decimalToRat neg mantissa (e - (fracPart.length : Int)), cs4)
      | none =>
          match cs3 with
          | c :: _ =>
              if c = 'e' ∨ c = 'E' then none
              else some (decimalToRat neg mantissa (-(fracPart.length : Int)), cs3)
          | [] => some (decimalToRat neg mantissa (-(fracPart.length : Int)), cs3)

/-- Parse one JSON value of the modelled subset: a string, `null`, or a
number. -/
def parseJVal (cs : List Char) : Option (JVal × List Char) :=
  match cs with
  | [] => none
  | c :: rest =>
      if c = quoteChar then (parseJString cs).map (fun p => (JVal.str p.1, p.2))
      else if c = 'n' then
        if ['u', 'l', 'l'].isPrefixOf rest then some (JVal.null, rest.drop 3) else none
      else (parseJNumber cs).map (fun p => (JVal.num p.1, p.2))

/-- Parse the members of an object after its opening brace (or after a
comma): a string key, a colon, a value, then a comma (continue) or the
closing brace (done). The fuel is an upper bound on the remaining length. -/
def parseObjBody : Nat → List Char → JObj → Option (JObj × List Char)
  | 0, _, _ => none
  | fuel + 1, cs, acc =>
      match parseJString (skipWs cs) with
      | none => none
      | some (k, cs1) =>
          match skipWs cs1 with
          | ':' :: cs2 =>
              match parseJVal (skipWs cs2) with
              | none => none
              | some (v, cs3) =>
                  match skipWs cs3 with
                  | c :: cs4 =>
                      if c = ',' then parseObjBody fuel cs4 (acc ++ [(k, v)])
                      else if c = rbChar then some (acc ++ [(k, v)], cs4)
                      else none
                  | [] => none
          | _ => none

/-- Parse a JSON object literal from the front of the input. -/
def parseObj (cs : List Char) : Option (JObj × List Char) :=
  match skipWs cs with
  | c :: rest =>
      if c = lbChar then
        match skipWs rest with
        | d :: rest2 =>
            if d = rbChar then some ([], rest2)
            else parseObjBody (cs.length + 1) rest []
        | [] => none
      else none
  | [] => none

/-- The `json.loads` of `extract_json_from_response`, restricted to the
object subset the prompt produces: the whole input must be a single object
literal, up to surrounding whitespace. (A top-level non-object JSON document
is treated as a parse failure in this model; in the source such a document
would instead make the later `key in data` membership test raise, aborting
the extraction with a failure result either way.) -/
def json_loads_obj (s : String) : Option JObj :=
  match parseObj s.toList with
  | some (obj, rest) => if skipWs rest = [] then some obj else none
  | none => none

/-- One attempt of the flat-brace regex `\{[^{}]*\}` at a position just after
an opening brace: non-brace body characters, then the closing brace. -/
def flatMatchAt (cs : List Char) : Option (List Char × List Char) :=
  let body := cs.takeWhile (fun c => !(c = lbChar || c = rbChar))
  match cs.drop body.length with
  | c :: rest => if c = rbChar then some (body, rest) else none
  | [] => none

/-- `re.findall(r'\{[^{}]*\}', s)`: scan left to right, matches do not
overlap, and a failed attempt resumes at the next position. The fuel is an
upper bound on the remaining length. -/
def flatMatches : Nat → List Char → List String
  | 0, _ => []
  | _, [] => []
  | fuel + 1, c :: rest =>
      if c = lbChar then
        match flatMatchAt rest with
        | some (body, rest2) =>
            String.mk (lbChar :: (body ++ [rbChar])) :: flatMatches fuel rest2
        | none => flatMatches fuel rest
      else flatMatches fuel rest

/-- All flat-brace matches of a string. -/
def reFlatFindall (s : String) : List String := flatMatches s.toList.length s.toList

/-- One attempt of the nested-brace regex `\{(?:[^{}]|(?:\{[^{}]*\}))*\}` at
a position just after the opening brace: consume non-brace characters and
complete one-level groups; the match ends at the first bare closing brace; a
second-level opening brace kills the attempt. -/
def nestedMatchAt : Bool → List Char → Option (List Char × List Char)
  | _, [] => none
  | inGroup, c :: rest =>
      if inGroup then
        if c = rbChar then (nestedMatchAt false rest).map (fun p => (c :: p.1, p.2))
        else if c = lbChar then none
        else (nestedMatchAt true rest).map (fun p => (c :: p.1, p.2))
      else
        if c = rbChar then some ([c], rest)
        else if c = lbChar then (nestedMatchAt true rest).map (fun p => (c :: p.1, p.2))
        else (nestedMatchAt false rest).map (fun p => (c :: p.1, p.2))

/-- `re.findall` for the nested-brace pattern, scanning like the flat one. -/
def nestedMatches : Nat → List Char → List String
  | 0, _ => []
  | _, [] => []
  | fuel + 1, c :: rest =>
      if c = lbChar then
        match nestedMatchAt false rest with
        | some (body, rest2) =>
            String.mk (lbChar :: body) :: nestedMatches fuel rest2
        | none => nestedMatches fuel rest
      else nestedMatches fuel rest

/-- All nested-brace matches of a string. -/
def reNestedFindall (s : String) : List String :=
  nestedMatches s.toList.length s.toList

/-- One candidate attempt of the regex fallback loops of
`extract_json_from_response` (llm_client.py lines 119-128 and 134-143):
parse, then keep the object only when it has every required key. -/
def tryParseCandidate (requiredKeys : List String) (cand : String) : Option JObj :=
  match json_loads_obj cand with
  | some data => if requiredKeys.all (fun k => jhasKey data k) then some data else none
  | none => none

/-- `extract_json_from_response` (llm_client.py lines 90-145): empty input
fails; try the whole response (returned only when it has all required keys,
otherwise fall through); then the flat-brace candidates in order; then the
nested-brace candidates. An empty `requiredKeys` list models `None` (both
accept any parsed object). -/
def extract_json_from_response (response : String) (requiredKeys : List String) :
    Option JObj :=
  if response = "" then none
  else
    let whole :=
      match json_loads_obj response with
      | some data =>
          if requiredKeys.all (fun k => jhasKey data k) then some data else none
      | none => none
    match whole with
    | some data => some data
    | none =>
        match (reFlatFindall response).findSome? (tryParseCandidate requiredKeys) with
        | some data => some data
        | none => (reNestedFindall response).findSome? (tryParseCandidate requiredKeys)

/-- Python's `float(s)` on the simple numeric strings of the modelled subset:
optional surrounding whitespace, optional sign, digits with an optional
decimal point and an optional exponent. -/
def pyFloatOfString (s : String) : Option ℚ :=
  let cs := (pyStrip s).toList
  let (neg, cs1) :=
    match cs with
    | c :: rest =>
        if c = '-' then (true, rest) else if c = '+' then (false, rest) else (false, cs)
    | [] => (false, cs)
  let intPart := cs1.takeWhile Char.isDigit
  let cs2 := cs1.drop intPart.length
  let (fracPart, cs3) :=
    match cs2 with
    | '.' :: rest =>
        let ds := rest.takeWhile Char.isDigit
        (ds, rest.drop ds.length)
    | _ => ([], cs2)
  if intPart = [] ∧ fracPart = [] then none
  else
    let mantissa := digitsToNat (intPart ++ fracPart)
    match cs3 with
    | [] => some (decimalToRat neg mantissa (-(fracPart.length : Int)))
    | c :: rest =>
        if c = 'e' ∨ c = 'E' then
          let (eneg, rest2) :=
            match rest with
            | d :: rest' =>
                if d = '-' then (true, rest')
                else if d = '+' then (false, rest') else (false, rest)
            | [] => (false, rest)
          let eds := rest2.takeWhile Char.isDigit
          if eds = [] ∨ ¬(rest2.drop eds.length = []) then none
          else
            let e : Int :=
              if eneg then -(digitsToNat eds : Int) else (digitsToNat eds : Int)
            some (decimalToRat neg mantissa (e - (fracPart.length : Int)))
        else none

/-- The field coercion of `extract_oil_data_with_llm` (oil_extraction.py
lines 216-229): an absent key or JSON `null` becomes `math.nan`; a number is
taken as is; a numeric string is converted by `float`, any failure becoming
NaN via the caught `ValueError`/`TypeError`. -/
def coerce_fact : Option JVal → FactVal
  | none => .nan
  | some .null => .nan
  | some (.num q) => .num q
  | some (.str s) =>
      match pyFloatOfString s with
      | some q => .num q
      | none => .nan

/-- The two facts dict built by `extract_oil_data_with_llm`
(oil_extraction.py lines 231-234). -/
structure OilFacts where
  proved_reserves : FactVal
  annual_production : FactVal
  deriving DecidableEq

/-- The required keys passed to the JSON extraction
(oil_extraction.py line 208). -/
def required_oil_keys : List String := ["proved_reserves", "annual_production"]

/-- The prompt template `create_llm_prompt` (oil_extraction.py lines
143-170). -/
def create_llm_prompt (reserves_content production_content : String) : String :=
  "Extract oil data from this SEC filing content. Return JSON with exact format:\n" ++
  "\x7b\"proved_reserves\": <number>, \"annual_production\": <number>\x7d\n\n" ++
  "SEARCH FOR:\n" ++
  "1. CRUDE OIL PROVED RESERVES (barrels) - total proved reserves\n" ++
  "2. ANNUAL CRUDE OIL PRODUCTION (barrels/year) - convert daily to annual if needed\n\n" ++
  "CONVERSION RULES:\n" ++
  "- Million barrels (MM, MMBbl) = ×1,000,000\n" ++
  "- Billion barrels (B, BBbl) = ×1,000,000,000\n" ++
  "- Thousand barrels/day (MBD, MBPD) = ×1,000×365 for annual\n" ++
  "- Barrels/day (BPD, bbl/d) = ×365 for annual\n\n" ++
  "Return null if not found.\n\n" ++
  "SEC FILING CONTENT:\n" ++
  "=== CRUDE OIL RESERVES DATA ===\n" ++ reserves_content ++
  "\n\n=== CRUDE OIL PRODUCTION DATA ===\n" ++ production_content ++ "\n"

/-- The extraction pipeline `extract_oil_data_with_llm` (oil_extraction.py
lines 173-245), with the LLM availability flag, the HTML fetch (returning a
parsed document) and the model completion as oracles: narrow the content,
fail fast when both excerpts are blank, query the model, extract the JSON
with both required keys, and coerce the two fields. -/
def extract_oil_data_with_llm (available : Bool) (fetch : String → Option HtmlNode)
    (llm : String → Option String) (filing_url : String) : Option OilFacts :=
  if !available then none
  else
    match fetch filing_url with
    | none => none
    | some soup =>
        let rc := (extract_oil_content soup).1
        let pc := (extract_oil_content soup).2
        if pyStrip rc = "" ∧ pyStrip pc = "" then none
        else
          match llm (create_llm_prompt rc pc) with
          | none => none
          | some response =>
              if response = "" then none
              else
                match extract_json_from_response response required_oil_keys with
                | none => none
                | some json_data =>
                    some { proved_reserves :=
                             coerce_fact (jlookup json_data "proved_reserves"),
                           annual_production :=
                             coerce_fact (jlookup json_data "annual_production") }

/-- The result dict of `extract_oil_data_from_filing` (oil_extraction.py
lines 248-276), without the captured-stdout log (print capture is outside
the model): `success` is the truthiness of the pipeline result, and a falsy
result yields NaN facts. -/
structure OilOutcome where
  success : Bool
  data : OilFacts
  deriving DecidableEq

/-- The entry point `extract_oil_data_from_filing` over the same oracles. -/
def extract_oil_data_from_filing (available : Bool) (fetch : String → Option HtmlNode)
    (llm : String → Option String) (filing_url : String) : OilOutcome :=
  match extract_oil_data_with_llm available fetch llm filing_url with
  | some facts => { success := true, data := facts }
  | none =>
      { success := false,
        data := { proved_reserves := .nan, annual_production := .nan } }

/-- The reserve-life ratio computed by `plot_reserve_life_chart`
(callbacks.py line 454): proved reserves divided by annual production. -/
def reserve_life (proved_reserves annual_production : ℚ) : ℚ :=
  proved_reserves / annual_production

/-- Cache state of the `functools.lru_cache(maxsize=128)` wrapper
`get_cached_cik` (callbacks.py lines 19-22): the memoized bindings in
most-recently-used-first order, plus the count of underlying
`get_cik_from_ticker` network calls made so far. -/
structure CikCache where
  entries : List (String × Option String)
  calls : Nat

/-- The `maxsize` of the cache. -/
def lruMaxSize : Nat := 128

/-- Remove the binding of a key from the cache list. -/
def eraseKey (k : String) : List (String × Option String) → List (String × Option String)
  | [] => []
  | (k', v) :: rest =>
      if k' = k then eraseKey k rest else (k', v) :: eraseKey k rest

/-- One call of `get_cached_cik`: a hit returns the cached value — even a
cached `None` from a failed resolution — refreshing its recency, with no
network call; a miss invokes `get_cik_from_ticker` (modelled as an oracle
whose answer may vary over time, indexed by the network-call counter), caches
the result, and evicts the least-recently-used entry beyond the maxsize. -/
def get_cached_cik (resolver : Nat → String → Option String) (s : CikCache)
    (ticker : String) : Option String × CikCache :=
  match alookup ticker s.entries with
  | some v =>
      (v, { entries := (ticker, v) :: eraseKey ticker s.entries, calls := s.calls })
  | none =>
      let v := resolver s.calls ticker
      (v, { entries := ((ticker, v) :: s.entries).take lruMaxSize,
            calls := s.calls + 1 })

/-- Run a trace of ticker lookups through the cache, collecting the answers. -/
def run_cached_cik (resolver : Nat → String → Option String) :
    CikCache → List String → List (Option String) × CikCache
  | s, [] => ([], s)
  | s, t :: ts =>
      let step := get_cached_cik resolver s t
      let rest := run_cached_cik resolver step.2 ts
      (step.1 :: rest.1, rest.2)

/-- Modelled from the spec (§4.1, §9), for comparison only: the ideal
unbounded per-process memo table the claim describes — each distinct ticker
is resolved over the network exactly once, at its first occurrence, and every
later lookup returns that first result. -/
def ideal_memo (resolver : Nat → String → Option String) :
    List (String × Option String) → List String →
      List (Option String) × List (String × Option String)
  | seen, [] => ([], seen)
  | seen, t :: ts =>
      match alookup t seen with
      | some v =>
          let rest := ideal_memo resolver seen ts
          (v :: rest.1, rest.2)
      | none =>
          let v := resolver seen.length t
          let rest := ideal_memo resolver (seen ++ [(t, v)]) ts
          (v :: rest.1, rest.2)

/-- Keys of a cache list. -/
def keysOf (l : List (String × Option String)) : List String := l.map Prod.fst

/-- A 130-request trace: a ticker, then 128 further distinct tickers, then
the first ticker again — enough to evict the first entry from the
128-entry cache. -/
def c10_trace : List String := (List.range 129).map (fun i => "T" ++ toString i) ++ ["T0"]

/-- A resolver whose very first network call fails transiently and whose
later calls succeed. -/
def c10_resolver : Nat → String → Option String :=
  fun n _ => if n = 0 then none else some "0000000019"

-- DEFINITIONS CONTINUE ABOVE THIS LINE; THEOREMS BELOW

/-- Lookup in a left part of an appended association list. -/
theorem alookup_append_left {α : Type} {k : String} {xs : List (String × α)} {v : α}
    (ys : List (String × α)) (h : alookup k xs = some v) :
    alookup k (xs ++ ys) = some v := by
  induction xs with
  | nil => simp [alookup] at h
  | cons x rest ih =>
      cases x with
      | mk k' w =>
          simp only [alookup, List.cons_append] at h ⊢
          by_cases hk : k' = k
          · simpa [hk] using h
          · simp only [hk, if_false] at h ⊢
            exact ih h

/-- Lookup falls through to the right part when absent from the left part. -/
theorem alookup_append_right {α : Type} {k : String} {xs : List (String × α)}
    (ys : List (String × α)) (h : alookup k xs = none) :
    alookup k (xs ++ ys) = alookup k ys := by
  induction xs with
  | nil => simp
  | cons x rest ih =>
      cases x with
      | mk k' w =>
          simp only [alookup, List.cons_append] at h ⊢
          by_cases hk : k' = k
          · simp [hk] at h
          · simp only [hk, if_false] at h ⊢
            exact ih h

/-- Unfolding of `merge_filings` on a cons of discovered filings. -/
theorem merge_filings_cons (e : List (String × Filing)) (kd : String × DiscItem)
    (rest : List (String × DiscItem)) :
    merge_filings e (kd :: rest) =
      merge_filings
        (if (alookup kd.1 e).isSome then e
         else e ++ [(kd.1, mk_discovered_filing kd.2)]) rest := rfl

/-- The merge never changes an existing binding. -/
theorem merge_filings_preserves (d : List (String × DiscItem)) :
    ∀ (e : List (String × Filing)) (k : String) (f : Filing),
      alookup k e = some f → alookup k (merge_filings e d) = some f := by
  induction d with
  | nil => intro e k f h; simpa [merge_filings] using h
  | cons kd rest ih =>
      intro e k f h
      rw [merge_filings_cons]
      by_cases hp : (alookup kd.1 e).isSome
      · simpa [hp] using ih e k f h
      · simp only [hp, if_false]
        exact ih _ k f (alookup_append_left _ h)

/-- After a merge, every discovered key is present in the filings dict. -/
theorem merge_filings_key_present (d : List (String × DiscItem)) :
    ∀ (e : List (String × Filing)) (kd : String × DiscItem), kd ∈ d →
      (alookup kd.1 (merge_filings e d)).isSome := by
  induction d with
  | nil => intro e kd h; simp at h
  | cons kd0 rest ih =>
      intro e kd h
      rw [merge_filings_cons]
      rcases List.mem_cons.mp h with h0 | h1
      · subst h0
        by_cases hp : (alookup kd.1 e).isSome
        · simp only [hp, if_true]
          obtain ⟨v, hv⟩ := Option.isSome_iff_exists.mp hp
          have := merge_filings_preserves rest e kd.1 v hv
          simp [this]
        · simp only [hp, if_false]
          have hnone : alookup kd.1 e = none := Option.not_isSome_iff_eq_none.mp hp
          have hx : alookup kd.1 (e ++ [(kd.1, mk_discovered_filing kd.2)]) =
              some (mk_discovered_filing kd.2) := by
            rw [alookup_append_right _ hnone]; simp [alookup]
          have := merge_filings_preserves rest _ kd.1 _ hx
          simp [this]
      · exact ih _ kd h1

/-- Merging discovered filings all of whose keys are already present does
nothing. -/
theorem merge_filings_all_present (d : List (String × DiscItem)) :
    ∀ (e : List (String × Filing)),
      (∀ kd ∈ d, (alookup kd.1 e).isSome) → merge_filings e d = e := by
  induction d with
  | nil => intro e _; rfl
  | cons kd rest ih =>
      intro e h
      rw [merge_filings_cons]
      have hp : (alookup kd.1 e).isSome := h kd (List.mem_cons_self kd rest)
      simp only [hp, if_true]
      exact ih e (fun kd' h' => h kd' (List.mem_cons_of_mem kd h'))

/-- C2: the filings merge is additive-only — every accession already present
keeps its exact existing record (extracted facts and log included) — and
merging the same discovery result a second time leaves the filings map (hence
the filing count) unchanged. -/
theorem c2_merge_additive_idempotent (e : List (String × Filing))
    (d : List (String × DiscItem)) (k : String) (f : Filing)
    (h : alookup k e = some f) :
    alookup k (merge_filings e d) = some f ∧
      merge_filings (merge_filings e d) d = merge_filings e d := by
  refine ⟨merge_filings_preserves d e k f h, ?_⟩
  exact merge_filings_all_present d _ (fun kd hm => merge_filings_key_present d e kd hm)

/-- Witness for C2 at a concrete store: an existing filing with extracted facts
survives a merge that also inserts a new accession, and re-merging is a no-op. -/
theorem c2_merge_additive_idempotent_witness :
    alookup "acc1"
        (merge_filings
          [("acc1", { ftype := "10-K", filing_date := "2021-02-01", url := "u1",
                      accession := "acc1", period_end := "2020-12-31",
                      extracted_data := some ⟨some (.num 7), some (.num 2)⟩,
                      extraction_log := some "done" })]
          [("acc1", { dtype := "10-K", filing_date := "2021-02-01",
                      period_end := "2020-12-31", url := "u1", accession := "acc1" }),
           ("acc2", { dtype := "10-K", filing_date := "2022-02-01",
                      period_end := "2021-12-31", url := "u2", accession := "acc2" })]) =
      some { ftype := "10-K", filing_date := "2021-02-01", url := "u1",
             accession := "acc1", period_end := "2020-12-31",
             extracted_data := some ⟨some (.num 7), some (.num 2)⟩,
             extraction_log := some "done" } := by
  exact (c2_merge_additive_idempotent _ _ "acc1" _ (by rfl)).1

/-- The bulk loop maps each filing record through `bulk_process_filing`. -/
theorem bulk_filings_alookup (ext : String → Option ExtResult) (acc : String) :
    ∀ fs : List (String × Filing),
      alookup acc (bulk_filings ext fs).1 =
        (alookup acc fs).map (fun f => (bulk_process_filing ext f).1) := by
  intro fs
  induction fs with
  | nil => rfl
  | cons x rest ih =>
      cases x with
      | mk k f =>
          by_cases hk : k = acc
          · simp [bulk_filings, alookup, hk]
          · simp [bulk_filings, alookup, hk, ih]

/-- The bulk loop maps each company through the filings loop. -/
theorem bulk_companies_alookup (ext : String → Option ExtResult) (tk : String) :
    ∀ cs : List (String × Company),
      alookup tk (bulk_companies ext cs).1 =
        (alookup tk cs).map (fun co => { co with filings := (bulk_filings ext co.filings).1 }) := by
  intro cs
  induction cs with
  | nil => rfl
  | cons x rest ih =>
      cases x with
      | mk k co =>
          by_cases hk : k = tk
          · simp [bulk_companies, alookup, hk]
          · simp [bulk_companies, alookup, hk, ih]

/-- A filing that already holds valid data is returned untouched by the bulk
step, with both counters at zero, for every extractor. -/
theorem bulk_process_filing_skip (ext : String → Option ExtResult) (f : Filing)
    (hv : has_valid_data f = true) : bulk_process_filing ext f = (f, 0, 0) := by
  simp [bulk_process_filing, hv]

/-- Record updates made by the bulk step do not change the URL field. -/
theorem bulk_process_filing_url (ext : String → Option ExtResult) (f : Filing) :
    (bulk_process_filing ext f).1.url = f.url := by
  unfold bulk_process_filing
  by_cases hv : has_valid_data f
  · simp [hv]
  · simp only [hv, if_false]
    cases hx : ext f.url with
    | none => rfl
    | some r =>
        by_cases hs : r.success
        · simp only [hs, if_true]
          by_cases hn : (!isNanVal (r.data.reserves.getD (.num 0)) &&
              !isNanVal (r.data.production.getD (.num 0))) = true
          · simp [hn]
          · simp [hn]
        · simp [hs]

/-- Reprocessing the output of the bulk step reproduces it: either the stored
facts became valid (the filing is skipped), or the extractor is re-invoked on
the same URL and stores the same facts and log again. -/
theorem bulk_process_filing_idem (ext : String → Option ExtResult) (f : Filing) :
    (bulk_process_filing ext (bulk_process_filing ext f).1).1 =
      (bulk_process_filing ext f).1 := by
  by_cases hv : has_valid_data f
  · rw [bulk_process_filing_skip ext f hv]
    rw [bulk_process_filing_skip ext f hv]
  · conv_lhs => rw [bulk_process_filing]
    rw [bulk_process_filing_url]
    unfold bulk_process_filing
    simp only [hv, if_false]
    cases hx : ext f.url with
    | none =>
        simp only [has_valid_data, validVal, Option.getD_some]
        simp [validVal]
    | some r =>
        by_cases hs : r.success
        · simp only [hs, if_true]
          by_cases hn : (!isNanVal (r.data.reserves.getD (.num 0)) &&
              !isNanVal (r.data.production.getD (.num 0))) = true
          · simp only [hn, if_true]
            by_cases hv' : (validVal (r.data.reserves.getD (.num 0)) ||
                validVal (r.data.production.getD (.num 0))) = true
            · simp [has_valid_data, hv']
            · simp [has_valid_data, hv', hx, hs, hn]
          · simp only [hn, if_false]
            by_cases hv' : (validVal (r.data.reserves.getD (.num 0)) ||
                validVal (r.data.production.getD (.num 0))) = true
            · simp [has_valid_data, hv']
            · simp [has_valid_data, hv', hx, hs, hn]
        · simp only [hs, if_false]
          simp [has_valid_data, validVal, hx, hs]

/-- The filings loop is idempotent on the filings dict. -/
theorem bulk_filings_idem (ext : String → Option ExtResult) :
    ∀ fs : List (String × Filing),
      (bulk_filings ext (bulk_filings ext fs).1).1 = (bulk_filings ext fs).1 := by
  intro fs
  induction fs with
  | nil => rfl
  | cons x rest ih =>
      cases x with
      | mk k f => simp [bulk_filings, bulk_process_filing_idem, ih]

/-- The companies loop is idempotent on the store. -/
theorem bulk_companies_idem (ext : String → Option ExtResult) :
    ∀ cs : List (String × Company),
      (bulk_companies ext (bulk_companies ext cs).1).1 = (bulk_companies ext cs).1 := by
  intro cs
  induction cs with
  | nil => rfl
  | cons x rest ih =>
      cases x with
      | mk k co => simp [bulk_companies, bulk_filings_idem, ih]

/-- C1: a filing whose extracted facts already contain a valid value (a
positive non-NaN number) is left entirely unchanged by the bulk extraction —
the per-filing step returns it untouched for every extractor, so the extractor
is never consulted for it — and re-running the bulk extraction on its own
output reproduces the store exactly. -/
theorem c1_bulk_leaves_valid_untouched (ext : String → Option ExtResult)
    (cs : List (String × Company)) (tk acc : String) (co : Company) (f : Filing)
    (hc : alookup tk cs = some co) (hf : alookup acc co.filings = some f)
    (hv : has_valid_data f = true) :
    (∃ co', alookup tk (bulk_companies ext cs).1 = some co' ∧
        alookup acc co'.filings = some f) ∧
      (∀ ext' : String → Option ExtResult, bulk_process_filing ext' f = (f, 0, 0)) ∧
      (∀ cs' : List (String × Company),
        (bulk_companies ext (bulk_companies ext cs').1).1 = (bulk_companies ext cs').1) := by
  refine ⟨?_, fun ext' => bulk_process_filing_skip ext' f hv, fun cs' => bulk_companies_idem ext cs'⟩
  refine ⟨{ co with filings := (bulk_filings ext co.filings).1 }, ?_, ?_⟩
  · rw [bulk_companies_alookup, hc]; rfl
  · show alookup acc (bulk_filings ext co.filings).1 = some f
    rw [bulk_filings_alookup, hf]
    simp [bulk_process_filing_skip ext f hv]

/-- Witness for C1: a concrete store with one company and one filing holding a
valid reserves value, against an extractor that would report a failure. -/
theorem c1_bulk_leaves_valid_untouched_witness :
    (∃ co', alookup "XOM"
        (bulk_companies (fun _ => none)
          [("XOM", { info := [("ticker", "XOM")],
                     filings := [("acc1",
                       { ftype := "10-K", filing_date := "2021-02-01", url := "u1",
                         accession := "acc1", period_end := "2020-12-31",
                         extracted_data := some ⟨some (.num 5), some .nan⟩,
                         extraction_log := some "ok" })] })]).1 = some co' ∧
        alookup "acc1" co'.filings = some
          { ftype := "10-K", filing_date := "2021-02-01", url := "u1",
            accession := "acc1", period_end := "2020-12-31",
            extracted_data := some ⟨some (.num 5), some .nan⟩,
            extraction_log := some "ok" }) ∧
      (∀ ext' : String → Option ExtResult,
        bulk_process_filing ext'
          { ftype := "10-K", filing_date := "2021-02-01", url := "u1",
            accession := "acc1", period_end := "2020-12-31",
            extracted_data := some ⟨some (.num 5), some .nan⟩,
            extraction_log := some "ok" } =
          ({ ftype := "10-K", filing_date := "2021-02-01", url := "u1",
             accession := "acc1", period_end := "2020-12-31",
             extracted_data := some ⟨some (.num 5), some .nan⟩,
             extraction_log := some "ok" }, 0, 0)) ∧
      (∀ cs' : List (String × Company),
        (bulk_companies (fun _ => none) (bulk_companies (fun _ => none) cs').1).1 =
          (bulk_companies (fun _ => none) cs').1) := by
  exact c1_bulk_leaves_valid_untouched (fun _ => none) _ "XOM" "acc1" _ _
    (by rfl) (by rfl) (by decide)

/-- Counterexample for C3: on a failed extraction attempt (the extractor
returns nothing), the orchestrator persists the facts as zeros, not as the
NotANumber sentinel — `{'proved_reserves': 0, 'annual_production': 0}` is
stored, and `0` is distinct from NaN. -/
theorem c3_counterexample_failure_stores_zero :
    (bulk_process_filing (fun _ => none)
        { ftype := "10-K", filing_date := "2021-02-01", url := "u1",
          accession := "acc1", period_end := "2020-12-31",
          extracted_data := none, extraction_log := none }).1.extracted_data =
      some ⟨some (.num 0), some (.num 0)⟩ ∧
      FactVal.num 0 ≠ FactVal.nan := by
  exact ⟨rfl, by decide⟩

/-- C3 amended: after an attempt on a filing without valid data, the
orchestrator always persists facts and a log so the filing is marked
attempted, but the sentinel differs by outcome — on failure (no result, or
`success=false`) both paths (bulk and single) store zeros together with the
attempt's log (or a fixed fallback log), while only a successful extraction
that found no valid numbers persists the extractor's own facts, which may be
the NaN sentinel. -/
theorem c3_failure_persists_zeros_not_nan (ext : String → Option ExtResult)
    (f : Filing) (hv : has_valid_data f = false) :
    (ext f.url = none →
      bulk_process_filing ext f =
        ({ f with extracted_data := some ⟨some (.num 0), some (.num 0)⟩,
                  extraction_log := some "Extraction failed" }, 0, 1) ∧
      single_process_filing ext f =
        { f with extracted_data := some ⟨some (.num 0), some (.num 0)⟩,
                 extraction_log := some "No data extracted" }) ∧
    (∀ r : ExtResult, ext f.url = some r → r.success = false →
      bulk_process_filing ext f =
        ({ f with extracted_data := some ⟨some (.num 0), some (.num 0)⟩,
                  extraction_log := some r.log }, 0, 1) ∧
      single_process_filing ext f =
        { f with extracted_data := some ⟨some (.num 0), some (.num 0)⟩,
                 extraction_log := some r.log }) ∧
    (∀ r : ExtResult, ext f.url = some r → r.success = true →
      (bulk_process_filing ext f).1.extracted_data =
        some ⟨some (r.data.reserves.getD (.num 0)),
              some (r.data.production.getD (.num 0))⟩ ∧
      (bulk_process_filing ext f).1.extraction_log = some r.log) := by
  refine ⟨?_, ?_, ?_⟩
  · intro hx
    constructor
    · simp [bulk_process_filing, hv, hx]
    · simp [single_process_filing, hx]
  · intro r hx hs
    constructor
    · simp [bulk_process_filing, hv, hx, hs]
    · simp [single_process_filing, hx, hs]
  · intro r hx hs
    by_cases hn : (!isNanVal (r.data.reserves.getD (.num 0)) &&
        !isNanVal (r.data.production.getD (.num 0))) = true
    · simp [bulk_process_filing, hv, hx, hs, hn]
    · simp [bulk_process_filing, hv, hx, hs, hn]

/-- Witness for C3 amended at a concrete never-attempted filing and an
extractor that fails. -/
theorem c3_failure_persists_zeros_not_nan_witness :
    ((fun (_ : String) => (none : Option ExtResult)) "u1" = none →
      bulk_process_filing (fun _ => none)
          { ftype := "10-K", filing_date := "2021-02-01", url := "u1",
            accession := "acc1", period_end := "2020-12-31",
            extracted_data := none, extraction_log := none } =
        ({ ftype := "10-K", filing_date := "2021-02-01", url := "u1",
           accession := "acc1", period_end := "2020-12-31",
           extracted_data := some ⟨some (.num 0), some (.num 0)⟩,
           extraction_log := some "Extraction failed" }, 0, 1) ∧
      single_process_filing (fun _ => none)
          { ftype := "10-K", filing_date := "2021-02-01", url := "u1",
            accession := "acc1", period_end := "2020-12-31",
            extracted_data := none, extraction_log := none } =
        { ftype := "10-K", filing_date := "2021-02-01", url := "u1",
          accession := "acc1", period_end := "2020-12-31",
          extracted_data := some ⟨some (.num 0), some (.num 0)⟩,
          extraction_log := some "No data extracted" }) ∧
    (∀ r : ExtResult,
      (fun (_ : String) => (none : Option ExtResult)) "u1" = some r → r.success = false →
      bulk_process_filing (fun _ => none)
          { ftype := "10-K", filing_date := "2021-02-01", url := "u1",
            accession := "acc1", period_end := "2020-12-31",
            extracted_data := none, extraction_log := none } =
        ({ ftype := "10-K", filing_date := "2021-02-01", url := "u1",
           accession := "acc1", period_end := "2020-12-31",
           extracted_data := some ⟨some (.num 0), some (.num 0)⟩,
           extraction_log := some r.log }, 0, 1) ∧
      single_process_filing (fun _ => none)
          { ftype := "10-K", filing_date := "2021-02-01", url := "u1",
            accession := "acc1", period_end := "2020-12-31",
            extracted_data := none, extraction_log := none } =
        { ftype := "10-K", filing_date := "2021-02-01", url := "u1",
          accession := "acc1", period_end := "2020-12-31",
          extracted_data := some ⟨some (.num 0), some (.num 0)⟩,
          extraction_log := some r.log }) ∧
    (∀ r : ExtResult,
      (fun (_ : String) => (none : Option ExtResult)) "u1" = some r → r.success = true →
      (bulk_process_filing (fun _ => none)
          { ftype := "10-K", filing_date := "2021-02-01", url := "u1",
            accession := "acc1", period_end := "2020-12-31",
            extracted_data := none, extraction_log := none }).1.extracted_data =
        some ⟨some (r.data.reserves.getD (.num 0)),
              some (r.data.production.getD (.num 0))⟩ ∧
      (bulk_process_filing (fun _ => none)
          { ftype := "10-K", filing_date := "2021-02-01", url := "u1",
            accession := "acc1", period_end := "2020-12-31",
            extracted_data := none, extraction_log := none }).1.extraction_log =
        some r.log) := by
  exact c3_failure_persists_zeros_not_nan (fun _ => none) _ (by decide)

/-- Transitivity of the code-point lexicographic order. -/
theorem charListLe_trans : ∀ (as bs cs : List Char),
    charListLe as bs = true → charListLe bs cs = true → charListLe as cs = true := by
  intro as
  induction as with
  | nil => intro bs cs _ _; rfl
  | cons a as ih =>
      intro bs cs h1 h2
      cases bs with
      | nil => simp [charListLe] at h1
      | cons b bs =>
          cases cs with
          | nil => simp [charListLe] at h2
          | cons c cs =>
              simp only [charListLe, Bool.or_eq_true, Bool.and_eq_true,
                decide_eq_true_eq] at h1 h2 ⊢
              rcases h1 with h1 | ⟨hab, h1⟩
              · rcases h2 with h2 | ⟨hbc, h2⟩
                · exact Or.inl (by omega)
                · exact Or.inl (by omega)
              · rcases h2 with h2 | ⟨hbc, h2⟩
                · exact Or.inl (by omega)
                · exact Or.inr ⟨by omega, ih bs cs h1 h2⟩

/-- A produced candidate's date passed the inclusive range filter. -/
theorem row_candidate_in_range {ft sd ed : String} {cells : List String}
    {c : DiscCand} (h : row_candidate ft sd ed cells = some c) :
    pyStrLe sd c.filing_date = true ∧ pyStrLe c.filing_date ed = true := by
  unfold row_candidate at h
  split at h
  · split at h
    · exact Option.noConfusion h
    · split at h
      · exact Option.noConfusion h
      · split at h
        next hle =>
          split at h
          · exact Option.noConfusion h
          · split at h
            · exact Option.noConfusion h
            · cases h
              simpa [Bool.and_eq_true] using hle
        next => exact Option.noConfusion h
  · exact Option.noConfusion h

/-- No row can produce a candidate when the range is inverted. -/
theorem row_candidate_none_of_invalid {ft sd ed : String} (cells : List String)
    (hlt : pyStrLe sd ed = false) : row_candidate ft sd ed cells = none := by
  unfold row_candidate
  split
  · split
    · rfl
    · split
      · rfl
      · next fd _ =>
          have hfalse : (pyStrLe sd fd && pyStrLe fd ed) = false := by
            cases h1 : pyStrLe sd fd with
            | false => rfl
            | true =>
                cases h2 : pyStrLe fd ed with
                | false => rfl
                | true =>
                    exfalso
                    have := charListLe_trans sd.toList fd.toList ed.toList h1 h2
                    rw [show pyStrLe sd ed = charListLe sd.toList ed.toList from rfl] at hlt
                    rw [this] at hlt
                    exact Bool.noConfusion hlt
          simp [hfalse]
  · rfl

/-- C9: every candidate returned by the listing has its (canonicalized) filing
date within `[start_date, end_date]` inclusive under Python string comparison
of ISO dates, and a call with `start_date > end_date` returns the empty list
without error. -/
theorem c9_listing_in_range (ft sd ed : String) (rows : List (List String)) :
    (∀ c ∈ get_filings_from_search_page ft sd ed rows,
       pyStrLe sd c.filing_date = true ∧ pyStrLe c.filing_date ed = true) ∧
    (pyStrLe sd ed = false → get_filings_from_search_page ft sd ed rows = []) := by
  constructor
  · intro c hc
    rw [get_filings_from_search_page] at hc
    obtain ⟨cells, _, hcand⟩ := List.mem_filterMap.mp hc
    exact row_candidate_in_range hcand
  · intro hlt
    rw [get_filings_from_search_page]
    refine List.filterMap_eq_nil_iff.mpr ?_
    intro cells _
    exact row_candidate_none_of_invalid cells hlt

/-- Witness for C9 on a concrete parsed search page: the one produced
candidate is in range, and with the range inverted the listing is empty. -/
theorem c9_listing_in_range_witness :
    (pyStrLe "2020-01-01" "2020-03-02" = true ∧
       pyStrLe "2020-03-02" "2020-12-31" = true) ∧
    get_filings_from_search_page "10-K" "2020-12-31" "2020-01-01"
        [["Type", "Format", "Description", "Date"],
         ["10-K", "Documents", "Annual report Acc-no: 0001234567-20-000123",
          "2020-03-02"]] = [] := by
  constructor
  · exact (c9_listing_in_range "10-K" "2020-01-01" "2020-12-31"
        [["Type", "Format", "Description", "Date"],
         ["10-K", "Documents", "Annual report Acc-no: 0001234567-20-000123",
          "2020-03-02"]]).1
      ⟨"0001234567-20-000123", "2020-03-02", "10-K"⟩ (by decide)
  · exact (c9_listing_in_range "10-K" "2020-12-31" "2020-01-01"
        [["Type", "Format", "Description", "Date"],
         ["10-K", "Documents", "Annual report Acc-no: 0001234567-20-000123",
          "2020-03-02"]]).2 (by decide)

/-- Counterexample for C4: a well-formed 10-Q index page — header row naming
the Document and Type columns, a data row whose type text equals the expected
filing type `10-Q`, with a primary-document link and a period of report —
resolves to nothing: the row whose type equals the expected type is not
selected, because the scan compares against the literal `'10-K'`. -/
theorem c4_counterexample_expected_type_ignored :
    get_filing_details_from_index 123456 "000123456720000123" (some "2020-06-30")
        [[IdxRow.header ["Seq", "Description", "Document", "Type", "Size"],
          IdxRow.data
            [⟨"1", none⟩, ⟨"FORM 10-Q", none⟩,
             ⟨"form10q.htm",
              some ⟨"form10q.htm", some "/Archives/edgar/data/123456/form10q.htm"⟩⟩,
             ⟨"10-Q", none⟩, ⟨"12345", none⟩]]] = none ∧
      ("10-Q" : String) ≠ "10-K" := by
  exact ⟨by decide, by decide⟩

/-- C4 amended: the document-listing scan selects a row exactly by its type
text being the literal string `'10-K'`, irrespective of the filing type being
discovered; any row with a different type text — `'10-K/A'`, `'10-Q'`, or
anything else — is never selected, so detail resolution can only ever match
10-K-typed rows. -/
theorem c4_selected_row_type_is_literal_10k (p : Option Nat × Option Nat)
    (rows : List IdxRow) (dcell : IdxCell) (t : String)
    (h : findMatchRow p rows = some (dcell, t)) : t = "10-K" := by
  induction rows generalizing p with
  | nil => exact Option.noConfusion h
  | cons row rest ih =>
      cases row with
      | header ths => exact ih (headerIndices p ths) h
      | data tds =>
          rcases p with ⟨pd, pt⟩
          cases pd with
          | none => exact ih (none, pt) h
          | some di =>
              cases pt with
              | none => exact ih (some di, none) h
              | some ti =>
                  simp only [findMatchRow] at h
                  split at h
                  · split at h
                    next heq =>
                      cases h
                      exact heq
                    next => exact ih (some di, some ti) h
                  · exact ih (some di, some ti) h

/-- Witness for C4 amended: a concrete index table whose matching row is typed
`10-K`; the selected type text is the literal `10-K`. -/
theorem c4_selected_row_type_is_literal_10k_witness : ("10-K" : String) = "10-K" := by
  exact c4_selected_row_type_is_literal_10k (none, none)
    [IdxRow.header ["Seq", "Description", "Document", "Type", "Size"],
     IdxRow.data
       [⟨"1", none⟩, ⟨"FORM 10-K", none⟩,
        ⟨"form10k.htm",
         some ⟨"form10k.htm", some "/Archives/edgar/data/123456/form10k.htm"⟩⟩,
        ⟨"10-K", none⟩, ⟨"54321", none⟩]]
    ⟨"form10k.htm",
     some ⟨"form10k.htm", some "/Archives/edgar/data/123456/form10k.htm"⟩⟩
    "10-K" (by decide)

/-- Counterexample for C6: a table whose flattened text contains "reserve",
an oil-unit token and "total" — the claim's full classification condition —
is nevertheless not classified and not included in the reserves excerpt,
because its text contains no digit (the code additionally requires
`has_numbers`). -/
theorem c6_counterexample_digitless_table_excluded :
    (containsSub "reserve"
        (pyLower "total proved crude oil reserves are increasing") = true ∧
     containsSub "oil"
        (pyLower "total proved crude oil reserves are increasing") = true ∧
     containsSub "total"
        (pyLower "total proved crude oil reserves are increasing") = true ∧
     has_reserves_keywords "total proved crude oil reserves are increasing" = true) ∧
    selected_reserves_tables
        (.elem "[document]"
          [.elem "table" [.text "total proved crude oil reserves are increasing"]]) = [] ∧
    extract_oil_content
        (.elem "[document]"
          [.elem "table" [.text "total proved crude oil reserves are increasing"]]) =
      ("\n\n", "\n\n") := by
  exact ⟨⟨by decide, by decide, by decide, by decide⟩, rfl, rfl⟩

/-- C6 amended: a table is classified reserves-relevant (and lands in the
selected-tables list that makes up the excerpt) exactly when its flattened
text passes `has_reserves_keywords` AND contains at least one digit; and the
keyword classifier itself holds exactly when the text is at least 20
characters long and its lowercase form contains the substring "reserve", at
least one oil-unit token, and one of "proved"/"proven"/"total". -/
theorem c6_table_selected_iff (stripped : HtmlNode) (i : Nat) (tbl : HtmlNode) :
    ((i, tbl) ∈ selected_reserves_tables stripped ↔
      (findAllTags ["table"] stripped)[i]? = some tbl ∧
        has_reserves_keywords (getTextStrip " " tbl) = true ∧
        has_numbers (getTextStrip " " tbl) = true) ∧
    (∀ t : String,
      has_reserves_keywords t = true ↔
        20 ≤ t.length ∧ containsSub "reserve" (pyLower t) = true ∧
          (["oil", "crude", "barrel", "bbl", "mmbbl", "petroleum"].any
            (fun ind => containsSub ind (pyLower t))) = true ∧
          (containsSub "proved" (pyLower t) || containsSub "proven" (pyLower t) ||
            containsSub "total" (pyLower t)) = true) := by
  constructor
  · unfold selected_reserves_tables
    rw [List.mem_filter, List.mk_mem_enum_iff_getElem?]
    simp [and_assoc]
  · intro t
    constructor
    · intro h
      unfold has_reserves_keywords at h
      split at h
      · exact absurd h (by simp)
      · next h0 =>
          push_neg at h0
          refine ⟨by omega, ?_⟩
          by_cases hr : containsSub "reserve" (pyLower t) = true
          · by_cases ha : (["oil", "crude", "barrel", "bbl", "mmbbl", "petroleum"].any
                (fun ind => containsSub ind (pyLower t))) = true
            · refine ⟨hr, ha, ?_⟩
              simpa [hr, ha] using h
            · rw [Bool.not_eq_true] at ha
              simp [ha, hr] at h
          · rw [Bool.not_eq_true] at hr
            simp [hr] at h
    · rintro ⟨hl, h1, h2, h3⟩
      have h0 : ¬(t = "" ∨ t.length < 20) := by
        rintro (rfl | hlen)
        · simp at hl
        · omega
      unfold has_reserves_keywords
      simp [h0, h1, h2, h3]

/-- Witness for C6 amended at a concrete one-table document matching the
spec's own example text. -/
theorem c6_table_selected_iff_witness :
    ((0, HtmlNode.elem "table" [.text "Total proved crude oil reserves: 1,234 MMBbl"]) ∈
        selected_reserves_tables
          (.elem "[document]"
            [.elem "table" [.text "Total proved crude oil reserves: 1,234 MMBbl"]]) ↔
      (findAllTags ["table"]
          (.elem "[document]"
            [.elem "table" [.text "Total proved crude oil reserves: 1,234 MMBbl"]]))[0]? =
          some (.elem "table" [.text "Total proved crude oil reserves: 1,234 MMBbl"]) ∧
        has_reserves_keywords
          (getTextStrip " "
            (.elem "table" [.text "Total proved crude oil reserves: 1,234 MMBbl"])) = true ∧
        has_numbers
          (getTextStrip " "
            (.elem "table" [.text "Total proved crude oil reserves: 1,234 MMBbl"])) = true) ∧
    (∀ t : String,
      has_reserves_keywords t = true ↔
        20 ≤ t.length ∧ containsSub "reserve" (pyLower t) = true ∧
          (["oil", "crude", "barrel", "bbl", "mmbbl", "petroleum"].any
            (fun ind => containsSub ind (pyLower t))) = true ∧
          (containsSub "proved" (pyLower t) || containsSub "proven" (pyLower t) ||
            containsSub "total" (pyLower t)) = true) := by
  exact c6_table_selected_iff
    (.elem "[document]"
      [.elem "table" [.text "Total proved crude oil reserves: 1,234 MMBbl"]])
    0 (.elem "table" [.text "Total proved crude oil reserves: 1,234 MMBbl"])

/-- Counterexample for C7: in the free-text pass, a `div` whose own text is
empty is still counted, because the classifier runs on
`get_text(strip=True)`, which includes the text of the child `p` that is
counted separately — the code yields the paragraph twice, while the spec's
own-text rule yields it once. -/
theorem c7_counterexample_parent_inherits_child_text :
    reserves_paragraphs
        ((stripRemoved
            (.elem "[document]"
              [.elem "div"
                [.elem "p"
                  [.text "Total proved crude oil reserves were 1,234 thousand barrels"]]])).getD
          (.elem "[document]" [])) =
      ["Total proved crude oil reserves were 1,234 thousand barrels",
       "Total proved crude oil reserves were 1,234 thousand barrels"] ∧
    reserves_paragraphs_own
        ((stripRemoved
            (.elem "[document]"
              [.elem "div"
                [.elem "p"
                  [.text "Total proved crude oil reserves were 1,234 thousand barrels"]]])).getD
          (.elem "[document]" [])) =
      ["Total proved crude oil reserves were 1,234 thousand barrels"] ∧
    ownTextStrip ""
        (.elem "div"
          [.elem "p"
            [.text "Total proved crude oil reserves were 1,234 thousand barrels"]]) = "" := by
  exact ⟨rfl, rfl, rfl⟩

/-- C7 amended: the free-text pass applies the classifiers to each element's
full rendered text, descendant text included — every
`p`/`div`/`span`/`td`/`li`/`th` element whose full `get_text(strip=True)`
text is longer than 30 characters and passes the reserves classifier with a
digit contributes that full text to the collected paragraphs (so a parent may
be counted in addition to its children). -/
theorem c7_classifier_uses_full_rendered_text (stripped e : HtmlNode)
    (hmem : e ∈ findAllTags textPassTags stripped)
    (hlen : 30 < (getTextStrip "" e).length)
    (hres : has_reserves_keywords (getTextStrip "" e) = true)
    (hnum : has_numbers (getTextStrip "" e) = true) :
    getTextStrip "" e ∈ reserves_paragraphs stripped := by
  unfold reserves_paragraphs
  refine List.mem_filterMap.mpr ⟨e, hmem, ?_⟩
  simp [hlen, hres, hnum]

/-- Witness for C7 amended: the child paragraph of the counterexample tree is
collected. -/
theorem c7_classifier_uses_full_rendered_text_witness :
    getTextStrip ""
        (.elem "p" [.text "Total proved crude oil reserves were 1,234 thousand barrels"]) ∈
      reserves_paragraphs
        (.elem "[document]"
          [.elem "div"
            [.elem "p"
              [.text "Total proved crude oil reserves were 1,234 thousand barrels"]]]) := by
  refine c7_classifier_uses_full_rendered_text _ _ ?_ (by decide) (by decide) (by decide)
  rw [show findAllTags textPassTags
      (.elem "[document]"
        [.elem "div"
          [.elem "p"
            [.text "Total proved crude oil reserves were 1,234 thousand barrels"]]]) =
    [.elem "div"
       [.elem "p" [.text "Total proved crude oil reserves were 1,234 thousand barrels"]],
     .elem "p" [.text "Total proved crude oil reserves were 1,234 thousand barrels"]] from rfl]
  exact List.mem_cons_of_mem _ (List.mem_cons_self _ _)

/-- Helper for C5: under the hypotheses (LLM available, fetch succeeded, the
excerpts are not both blank, a non-empty response came back), the pipeline
reduces to the JSON-extraction step. -/
theorem extract_with_llm_reduces (fetch : String → Option HtmlNode)
    (llm : String → Option String) (url : String) (soup : HtmlNode) (resp : String)
    (hfetch : fetch url = some soup)
    (hnonempty : ¬(pyStrip (extract_oil_content soup).1 = "" ∧
        pyStrip (extract_oil_content soup).2 = ""))
    (hllm : llm (create_llm_prompt (extract_oil_content soup).1
        (extract_oil_content soup).2) = some resp)
    (hne : ¬resp = "") :
    extract_oil_data_with_llm true fetch llm url =
      match extract_json_from_response resp required_oil_keys with
      | none => none
      | some json_data =>
          some { proved_reserves := coerce_fact (jlookup json_data "proved_reserves"),
                 annual_production := coerce_fact (jlookup json_data "annual_production") } := by
  unfold extract_oil_data_with_llm
  rw [hfetch]
  simp only [Bool.not_true, Bool.false_eq_true, if_false]
  rw [if_neg hnonempty, hllm]
  simp only []
  rw [if_neg hne]

/-- C5: with a response obtained, `success` is true exactly when a JSON object
with both required keys was extracted, independent of fact validity — a
parsed object whose two fields are both null still yields `success = true`
with NaN facts, while an unparseable response yields `success = false` with
NaN facts. -/
theorem c5_success_iff_json_extracted (fetch : String → Option HtmlNode)
    (llm : String → Option String) (url : String) (soup : HtmlNode) (resp : String)
    (hfetch : fetch url = some soup)
    (hnonempty : ¬(pyStrip (extract_oil_content soup).1 = "" ∧
        pyStrip (extract_oil_content soup).2 = ""))
    (hllm : llm (create_llm_prompt (extract_oil_content soup).1
        (extract_oil_content soup).2) = some resp)
    (hne : ¬resp = "") :
    ((extract_oil_data_from_filing true fetch llm url).success = true ↔
        (extract_json_from_response resp required_oil_keys).isSome = true) ∧
    (∀ obj : JObj, extract_json_from_response resp required_oil_keys = some obj →
        jlookup obj "proved_reserves" = some JVal.null →
        jlookup obj "annual_production" = some JVal.null →
        extract_oil_data_from_filing true fetch llm url =
          { success := true,
            data := { proved_reserves := .nan, annual_production := .nan } }) ∧
    (extract_json_from_response resp required_oil_keys = none →
        extract_oil_data_from_filing true fetch llm url =
          { success := false,
            data := { proved_reserves := .nan, annual_production := .nan } }) := by
  have hbody := extract_with_llm_reduces fetch llm url soup resp hfetch hnonempty hllm hne
  refine ⟨?_, ?_, ?_⟩
  · unfold extract_oil_data_from_filing
    rw [hbody]
    cases hj : extract_json_from_response resp required_oil_keys with
    | none => simp
    | some obj => simp
  · intro obj hj h1 h2
    unfold extract_oil_data_from_filing
    rw [hbody, hj]
    simp only []
    rw [h1, h2]
    rfl
  · intro hj
    unfold extract_oil_data_from_filing
    rw [hbody, hj]

/-- Witness for C5: a concrete document whose reserves excerpt is non-blank,
with a model that answers with no JSON — the pipeline reports
`success = false` and NaN facts. -/
theorem c5_success_iff_json_extracted_witness :
    ((extract_oil_data_from_filing true
          (fun _ => some (.elem "[document]"
            [.elem "table" [.text "Total proved crude oil reserves: 1,234 MMBbl"]]))
          (fun _ => some "no json here") "u").success = true ↔
        (extract_json_from_response "no json here" required_oil_keys).isSome = true) ∧
    (∀ obj : JObj, extract_json_from_response "no json here" required_oil_keys = some obj →
        jlookup obj "proved_reserves" = some JVal.null →
        jlookup obj "annual_production" = some JVal.null →
        extract_oil_data_from_filing true
            (fun _ => some (.elem "[document]"
              [.elem "table" [.text "Total proved crude oil reserves: 1,234 MMBbl"]]))
            (fun _ => some "no json here") "u" =
          { success := true,
            data := { proved_reserves := .nan, annual_production := .nan } }) ∧
    (extract_json_from_response "no json here" required_oil_keys = none →
        extract_oil_data_from_filing true
            (fun _ => some (.elem "[document]"
              [.elem "table" [.text "Total proved crude oil reserves: 1,234 MMBbl"]]))
            (fun _ => some "no json here") "u" =
          { success := false,
            data := { proved_reserves := .nan, annual_production := .nan } }) := by
  exact c5_success_iff_json_extracted
    (fun _ => some (.elem "[document]"
      [.elem "table" [.text "Total proved crude oil reserves: 1,234 MMBbl"]]))
    (fun _ => some "no json here") "u"
    (.elem "[document]"
      [.elem "table" [.text "Total proved crude oil reserves: 1,234 MMBbl"]])
    "no json here" rfl (by decide) rfl (by decide)

/-- C8: on the concrete model response, the whole-response parse fails, the
flat-brace scan finds the object, extraction succeeds with both required
keys, the coerced facts are 1.5e9 and 5e7 barrels, and the derived reserve
life is 30 years. -/
theorem c8_concrete_layered_extraction :
    json_loads_obj
        "Here is the result: \x7b\"proved_reserves\": 1500000000, \"annual_production\": 50000000\x7d" =
      none ∧
    reFlatFindall
        "Here is the result: \x7b\"proved_reserves\": 1500000000, \"annual_production\": 50000000\x7d" =
      ["\x7b\"proved_reserves\": 1500000000, \"annual_production\": 50000000\x7d"] ∧
    extract_json_from_response
        "Here is the result: \x7b\"proved_reserves\": 1500000000, \"annual_production\": 50000000\x7d"
        required_oil_keys =
      some [("proved_reserves", JVal.num 1500000000),
            ("annual_production", JVal.num 50000000)] ∧
    coerce_fact (jlookup
        [("proved_reserves", JVal.num 1500000000),
         ("annual_production", JVal.num 50000000)] "proved_reserves") =
      .num 1500000000 ∧
    coerce_fact (jlookup
        [("proved_reserves", JVal.num 1500000000),
         ("annual_production", JVal.num 50000000)] "annual_production") =
      .num 50000000 ∧
    reserve_life 1500000000 50000000 = 30 := by
  refine ⟨rfl, by decide, by decide, by decide, by decide, ?_⟩
  norm_num [reserve_life]

/-- A key erased from a cache list no longer resolves. -/
theorem alookup_eraseKey_self (k : String) :
    ∀ l : List (String × Option String), alookup k (eraseKey k l) = none := by
  intro l
  induction l with
  | nil => rfl
  | cons x rest ih =>
      cases x with
      | mk k' v =>
          by_cases hk : k' = k
          · simpa [eraseKey, hk] using ih
          · simp [eraseKey, alookup, hk, ih]

/-- Erasing one key leaves the other lookups unchanged. -/
theorem alookup_eraseKey_ne {k' k : String} (hne : ¬k' = k) :
    ∀ l : List (String × Option String), alookup k' (eraseKey k l) = alookup k' l := by
  intro l
  induction l with
  | nil => rfl
  | cons x rest ih =>
      cases x with
      | mk k0 v =>
          by_cases h0 : k0 = k
          · subst h0
            have : ¬k0 = k' := fun h => hne h.symm
            simp [eraseKey, alookup, this, ih]
          · by_cases h1 : k0 = k'
            · subst h1
              simp [eraseKey, alookup, h0]
            · simp [eraseKey, alookup, h0, h1, ih]

/-- A key that does not resolve is not among the keys. -/
theorem not_mem_keys_of_alookup_none {k : String} :
    ∀ {l : List (String × Option String)}, alookup k l = none → ¬k ∈ keysOf l := by
  intro l
  induction l with
  | nil => intro _ h; simp [keysOf] at h
  | cons x rest ih =>
      cases x with
      | mk k0 v =>
          intro h hmem
          rw [keysOf, List.map_cons] at hmem
          by_cases h0 : k0 = k
          · simp [alookup, h0] at h
          · simp only [alookup, h0, if_false] at h
            rcases List.mem_cons.mp hmem with h1 | h1
            · exact h0 h1.symm
            · exact ih h h1

/-- A key that resolves is among the keys. -/
theorem mem_keys_of_alookup_some {k : String} {v : Option String} :
    ∀ {l : List (String × Option String)}, alookup k l = some v → k ∈ keysOf l := by
  intro l
  induction l with
  | nil => intro h; simp [alookup] at h
  | cons x rest ih =>
      cases x with
      | mk k0 v0 =>
          intro h
          rw [keysOf, List.map_cons]
          by_cases h0 : k0 = k
          · subst h0
            exact List.mem_cons_self _ _
          · simp only [alookup, h0, if_false] at h
            exact List.mem_cons_of_mem _ (ih h)

/-- Erasing an absent key is the identity. -/
theorem eraseKey_eq_of_alookup_none {k : String} :
    ∀ {l : List (String × Option String)}, alookup k l = none → eraseKey k l = l := by
  intro l
  induction l with
  | nil => intro _; rfl
  | cons x rest ih =>
      cases x with
      | mk k0 v =>
          intro h
          by_cases h0 : k0 = k
          · simp [alookup, h0] at h
          · simp only [alookup, h0, if_false] at h
            simp [eraseKey, h0, ih h]

/-- Erasing a present key from a duplicate-free cache shrinks it by one. -/
theorem length_eraseKey_of_mem {k : String} {v : Option String} :
    ∀ {l : List (String × Option String)}, (keysOf l).Nodup →
      alookup k l = some v → (eraseKey k l).length + 1 = l.length := by
  intro l
  induction l with
  | nil => intro _ h; simp [alookup] at h
  | cons x rest ih =>
      cases x with
      | mk k0 v0 =>
          intro hnd h
          rw [keysOf, List.map_cons] at hnd
          obtain ⟨hnotin, hnd'⟩ := List.nodup_cons.mp hnd
          by_cases h0 : k0 = k
          · subst h0
            have hnone : alookup k0 rest = none := by
              cases hr : alookup k0 rest with
              | none => rfl
              | some w => exact absurd (mem_keys_of_alookup_some hr) hnotin
            simp [eraseKey, eraseKey_eq_of_alookup_none hnone]
          · simp only [alookup, h0, if_false] at h
            simp only [eraseKey, h0, if_false, List.length_cons]
            rw [← ih hnd' h]

/-- The erased cache's keys are the old keys without the erased one. -/
theorem keysOf_eraseKey_sublist (k : String) :
    ∀ l : List (String × Option String), (keysOf (eraseKey k l)).Sublist (keysOf l) := by
  intro l
  induction l with
  | nil => simp [eraseKey, keysOf]
  | cons x rest ih =>
      cases x with
      | mk k0 v =>
          by_cases h0 : k0 = k
          · have he : keysOf (eraseKey k ((k0, v) :: rest)) = keysOf (eraseKey k rest) := by
              simp [eraseKey, h0]
            have hc : keysOf ((k0, v) :: rest) = k0 :: keysOf rest := rfl
            rw [he, hc]
            exact List.Sublist.cons k0 ih
          · have he : keysOf (eraseKey k ((k0, v) :: rest)) =
                k0 :: keysOf (eraseKey k rest) := by
              simp [eraseKey, h0, keysOf]
            have hc : keysOf ((k0, v) :: rest) = k0 :: keysOf rest := rfl
            rw [he, hc]
            exact List.Sublist.cons₂ k0 ih

/-- The length of the ideal memo only grows. -/
theorem ideal_memo_length_ge (resolver : Nat → String → Option String) :
    ∀ (ts : List String) (seen : List (String × Option String)),
      seen.length ≤ (ideal_memo resolver seen ts).2.length := by
  intro ts
  induction ts with
  | nil => intro seen; simp [ideal_memo]
  | cons t ts ih =>
      intro seen
      cases hl : alookup t seen with
      | some v => simpa [ideal_memo, hl] using ih seen
      | none =>
          have := ih (seen ++ [(t, resolver seen.length t)])
          simp only [List.length_append, List.length_cons, List.length_nil] at this
          simpa [ideal_memo, hl] using le_trans (by omega) this

/-- A binding of the ideal memo is never changed afterwards. -/
theorem ideal_memo_preserves (resolver : Nat → String → Option String) :
    ∀ (ts : List String) (seen : List (String × Option String)) (t : String)
      (v : Option String), alookup t seen = some v →
      alookup t (ideal_memo resolver seen ts).2 = some v := by
  intro ts
  induction ts with
  | nil => intro seen t v h; simpa [ideal_memo] using h
  | cons t0 ts ih =>
      intro seen t v h
      cases hl : alookup t0 seen with
      | some w => simpa [ideal_memo, hl] using ih seen t v h
      | none =>
          simp only [ideal_memo, hl]
          exact ih _ t v (alookup_append_left _ h)

/-- Every answer of the ideal memo is the final memo's binding for the
requested ticker. -/
theorem ideal_memo_out_get (resolver : Nat → String → Option String) :
    ∀ (ts : List String) (seen : List (String × Option String)) (i : Nat) (t : String),
      ts.get? i = some t →
      ∃ v, alookup t (ideal_memo resolver seen ts).2 = some v ∧
        (ideal_memo resolver seen ts).1.get? i = some v := by
  intro ts
  induction ts with
  | nil => intro seen i t h; simp at h
  | cons t0 ts ih =>
      intro seen i t h
      cases i with
      | zero =>
          have ht : t0 = t := by simpa using h
          subst ht
          cases hl : alookup t0 seen with
          | some v =>
              refine ⟨v, ?_, by simp [ideal_memo, hl]⟩
              simp only [ideal_memo, hl]
              exact ideal_memo_preserves resolver ts seen t0 v hl
          | none =>
              refine ⟨resolver seen.length t0, ?_, by simp [ideal_memo, hl]⟩
              simp only [ideal_memo, hl]
              refine ideal_memo_preserves resolver ts _ t0 _ ?_
              rw [alookup_append_right _ hl]
              simp [alookup]
      | succ i =>
          simp only [List.get?] at h
          cases hl : alookup t0 seen with
          | some v =>
              obtain ⟨w, hw, ho⟩ := ih seen i t h
              exact ⟨w, by simpa [ideal_memo, hl] using hw, by simpa [ideal_memo, hl] using ho⟩
          | none =>
              obtain ⟨w, hw, ho⟩ := ih (seen ++ [(t0, resolver seen.length t0)]) i t h
              exact ⟨w, by simpa [ideal_memo, hl] using hw, by simpa [ideal_memo, hl] using ho⟩

/-- Within capacity, the LRU cache agrees with the ideal memo: same answers,
and the network-call count is the number of distinct tickers. -/
theorem run_cached_cik_agrees (resolver : Nat → String → Option String) :
    ∀ (ts : List String) (s : CikCache) (seen : List (String × Option String)),
      (keysOf s.entries).Nodup →
      (∀ t, alookup t s.entries = alookup t seen) →
      s.entries.length = seen.length →
      s.calls = seen.length →
      (ideal_memo resolver seen ts).2.length ≤ 128 →
      (run_cached_cik resolver s ts).1 = (ideal_memo resolver seen ts).1 ∧
        (run_cached_cik resolver s ts).2.calls = (ideal_memo resolver seen ts).2.length := by
  intro ts
  induction ts with
  | nil =>
      intro s seen _ _ _ hcalls _
      exact ⟨rfl, by simpa [run_cached_cik, ideal_memo] using hcalls⟩
  | cons t ts ih =>
      intro s seen hnd hagree hlen hcalls hsize
      cases hl : alookup t seen with
      | some v =>
          have hs : alookup t s.entries = some v := by rw [hagree, hl]
          have hstep : get_cached_cik resolver s t =
              (v, { entries := (t, v) :: eraseKey t s.entries, calls := s.calls }) := by
            simp [get_cached_cik, hs]
          have hnd' : (keysOf ((t, v) :: eraseKey t s.entries)).Nodup := by
            refine List.nodup_cons.mpr ⟨?_, ?_⟩
            · intro hmem
              exact not_mem_keys_of_alookup_none (alookup_eraseKey_self t s.entries)
                (by simpa [keysOf] using hmem)
            · exact List.Sublist.nodup (keysOf_eraseKey_sublist t s.entries) hnd
          have hagree' : ∀ t', alookup t' ((t, v) :: eraseKey t s.entries) = alookup t' seen := by
            intro t'
            by_cases ht' : t = t'
            · subst ht'; simp [alookup, hl]
            · have : ¬t' = t := fun h => ht' h.symm
              simp only [alookup, ht', if_false]
              rw [alookup_eraseKey_ne this, hagree]
          have hlen' : ((t, v) :: eraseKey t s.entries).length = seen.length := by
            have := length_eraseKey_of_mem hnd hs
            simp only [List.length_cons]
            omega
          have hsize' : (ideal_memo resolver seen ts).2.length ≤ 128 := by
            simpa [ideal_memo, hl] using hsize
          obtain ⟨ho, hc⟩ := ih { entries := (t, v) :: eraseKey t s.entries, calls := s.calls }
            seen hnd' hagree' hlen' hcalls hsize'
          constructor
          · simp only [run_cached_cik, hstep, ideal_memo, hl]
            rw [ho]
          · simpa [run_cached_cik, hstep, ideal_memo, hl] using hc
      | none =>
          have hs : alookup t s.entries = none := by rw [hagree, hl]
          have hroom : seen.length + 1 ≤ 128 := by
            have hge := ideal_memo_length_ge resolver ts (seen ++ [(t, resolver seen.length t)])
            simp only [List.length_append, List.length_cons, List.length_nil] at hge
            have : (ideal_memo resolver (seen ++ [(t, resolver seen.length t)]) ts).2.length ≤ 128 := by
              simpa [ideal_memo, hl] using hsize
            omega
          have htake : (((t, resolver s.calls t) :: s.entries).take lruMaxSize) =
              (t, resolver s.calls t) :: s.entries := by
            refine List.take_of_length_le ?_
            simp only [List.length_cons, lruMaxSize]
            omega
          have hstep : get_cached_cik resolver s t =
              (resolver s.calls t,
               { entries := (t, resolver s.calls t) :: s.entries, calls := s.calls + 1 }) := by
            simp [get_cached_cik, hs, htake]
          have hv : resolver s.calls t = resolver seen.length t := by rw [hcalls]
          have hnd' : (keysOf ((t, resolver s.calls t) :: s.entries)).Nodup := by
            refine List.nodup_cons.mpr ⟨?_, hnd⟩
            exact fun hmem => not_mem_keys_of_alookup_none hs (by simpa [keysOf] using hmem)
          have hagree' : ∀ t', alookup t' ((t, resolver s.calls t) :: s.entries) =
              alookup t' (seen ++ [(t, resolver seen.length t)]) := by
            intro t'
            by_cases ht' : t = t'
            · subst ht'
              rw [alookup_append_right _ hl]
              simp [alookup, hv]
            · have hne : ¬t' = t := fun h => ht' h.symm
              simp only [alookup, ht', if_false]
              cases hseen : alookup t' seen with
              | some w => rw [hagree, hseen, alookup_append_left _ hseen]
              | none =>
                  rw [hagree, hseen, alookup_append_right _ hseen]
                  simp [alookup, ht']
          have hlen' : ((t, resolver s.calls t) :: s.entries).length =
              (seen ++ [(t, resolver seen.length t)]).length := by
            simp [hlen]
          have hcalls' : s.calls + 1 = (seen ++ [(t, resolver seen.length t)]).length := by
            simp [hcalls]
          have hsize' : (ideal_memo resolver (seen ++ [(t, resolver seen.length t)]) ts).2.length ≤ 128 := by
            simpa [ideal_memo, hl] using hsize
          obtain ⟨ho, hc⟩ := ih
            { entries := (t, resolver s.calls t) :: s.entries, calls := s.calls + 1 }
            (seen ++ [(t, resolver seen.length t)]) hnd' hagree' hlen' hcalls' hsize'
          constructor
          · simp only [run_cached_cik, hstep, ideal_memo, hl]
            rw [ho, hv]
          · simpa [run_cached_cik, hstep, ideal_memo, hl] using hc

set_option maxRecDepth 10000 in
/-- Counterexample for C10: after the first lookup of `T0` fails transiently
(cached `None`) and 128 further distinct tickers are looked up, the `T0`
entry has been evicted from the 128-entry LRU cache, so the next `T0` call
does perform another network request and returns the fresh result — 130
network calls for 129 distinct tickers, and the second `T0` answer differs
from the first. -/
theorem c10_counterexample_eviction_refetches :
    c10_trace.head? = some "T0" ∧ c10_trace.getLast? = some "T0" ∧
    (run_cached_cik c10_resolver ⟨[], 0⟩ c10_trace).1.head? = some none ∧
    (run_cached_cik c10_resolver ⟨[], 0⟩ c10_trace).1.getLast? =
      some (some "0000000019") ∧
    (run_cached_cik c10_resolver ⟨[], 0⟩ c10_trace).2.calls = 130 := by
  exact ⟨by decide, by decide, by decide, by decide, by decide⟩

/-- C10 amended: as long as at most 128 distinct tickers are ever queried
(the `lru_cache` maxsize), the cache behaves as the ideal per-process memo:
every repeated call returns exactly the first call's result — including a
cached `None` from a failed resolution, which is never retried — and the
network is hit exactly once per distinct ticker; a cache hit never makes a
network call. Beyond 128 distinct tickers, least-recently-used entries are
evicted and re-resolved. -/
theorem c10_cached_repeats_within_capacity (resolver : Nat → String → Option String)
    (ts : List String) (hsize : (ideal_memo resolver [] ts).2.length ≤ 128) :
    (run_cached_cik resolver ⟨[], 0⟩ ts).1 = (ideal_memo resolver [] ts).1 ∧
    (run_cached_cik resolver ⟨[], 0⟩ ts).2.calls = (ideal_memo resolver [] ts).2.length ∧
    (∀ (i j : Nat) (t : String), ts.get? i = some t → ts.get? j = some t →
        (run_cached_cik resolver ⟨[], 0⟩ ts).1.get? i =
          (run_cached_cik resolver ⟨[], 0⟩ ts).1.get? j) ∧
    (∀ (s : CikCache) (t : String) (v : Option String),
        alookup t s.entries = some v →
        get_cached_cik resolver s t =
          (v, { entries := (t, v) :: eraseKey t s.entries, calls := s.calls })) := by
  have hmain := run_cached_cik_agrees resolver ts ⟨[], 0⟩ []
    (by simp [keysOf]) (fun t => rfl) rfl rfl hsize
  refine ⟨hmain.1, hmain.2, ?_, ?_⟩
  · intro i j t hi hj
    rw [hmain.1]
    obtain ⟨v, hv, ho⟩ := ideal_memo_out_get resolver ts [] i t hi
    obtain ⟨w, hw, hw'⟩ := ideal_memo_out_get resolver ts [] j t hj
    rw [ho, hw']
    rw [hv] at hw
    cases hw
    rfl
  · intro s t v h
    simp [get_cached_cik, h]

/-- Witness for C10 amended: two lookups of the same ticker against a
resolver that fails — the failure is cached, both answers are `None`, and
only one network call is made. -/
theorem c10_cached_repeats_within_capacity_witness :
    (run_cached_cik (fun _ _ => none) ⟨[], 0⟩ ["AAA", "AAA"]).1 =
      (ideal_memo (fun _ _ => none) [] ["AAA", "AAA"]).1 ∧
    (run_cached_cik (fun _ _ => none) ⟨[], 0⟩ ["AAA", "AAA"]).2.calls =
      (ideal_memo (fun _ _ => none) [] ["AAA", "AAA"]).2.length ∧
    (∀ (i j : Nat) (t : String),
        (["AAA", "AAA"] : List String).get? i = some t →
        (["AAA", "AAA"] : List String).get? j = some t →
        (run_cached_cik (fun _ _ => none) ⟨[], 0⟩ ["AAA", "AAA"]).1.get? i =
          (run_cached_cik (fun _ _ => none) ⟨[], 0⟩ ["AAA", "AAA"]).1.get? j) ∧
    (∀ (s : CikCache) (t : String) (v : Option String),
        alookup t s.entries = some v →
        get_cached_cik (fun _ _ => none) s t =
          (v, { entries := (t, v) :: eraseKey t s.entries, calls := s.calls })) := by
  exact c10_cached_repeats_within_capacity (fun _ _ => none) ["AAA", "AAA"] (by decide)

end ReserveLife
